import Mathlib

/-!
# Load balancer: round-robin selection, routing, health checks, admission

A shallow embedding of the Go packages `backends`, `balancer`, `ratelimiter`
and `handler`.

Conventions of the embedding

* A `*backends.Backend` is an address (`BackendPtr`).  The objects live in a
  `Heap`: the immutable `URL` field and the atomic `Alive` flag are read
  through the address, `next` is the next free address of the allocator.
  Pool entries are never the nil pointer (`NewLoadBalancer` only appends what
  `NewBackend` returns), so the nil pointer is not an address of the model.
  The `URL` field may be nil; `NewLoadBalancer` never stores a nil URL, and
  the statements about `Route` are for pools whose backends have one.
* The `uint64` cursor is a `Nat`; `atomic.AddUint64` reduces modulo `2 ^ 64`.
  Slice lengths and indices are non-negative `int`s far below `2 ^ 63`, so
  they are plain `Nat`s.
* A Go runtime panic is an `Except.error` carrying a `GoPanic`; the state
  reached before the panic is returned alongside.
* What the network answers (a forwarded request, a health probe) and what the
  store answers (a script evaluation) are inputs of the operations.
* Calls are sequential: one operation runs to completion before the next.
* The two Lua scripts are embedded by the package and are not part of the
  sources. The repository is an interface; where a statement depends on what
  the admission script does, the script is modelled from the specification.
-/

namespace LB

/-! ## Package `backends` -/

/-- Address of a `backends.Backend` object. -/
abbrev BackendPtr := Nat

/-- A parsed `*url.URL`, kept as the text it renders to. -/
abbrev URL := String

/-- Runtime panics the embedded code can raise. -/
inductive GoPanic where
  | integerDivideByZero
  | indexOutOfRange
  | nilPointerDereference
deriving DecidableEq, Repr

/-- The `Backend` objects: field `URL` (nil is `none`), field `Alive`, and the
allocator's next free address. `ReverseProxy` is represented by the outcome
of forwarding, an input of `Route`. -/
structure Heap where
  URL : BackendPtr → Option URL
  Alive : BackendPtr → Bool
  next : BackendPtr

/-- Function `NewBackend`: allocate `&Backend{URL: url, ReverseProxy: proxy}` and store
`true` in its `Alive` flag. -/
def NewBackend (url : Option URL) (h : Heap) : BackendPtr × Heap :=
  let b := h.next
  (b, { URL := Function.update h.URL b url,
        Alive := Function.update h.Alive b true,
        next := b + 1 })

/-- Method `(*Backend).IsAlive`. -/
def IsAlive (h : Heap) (b : BackendPtr) : Bool :=
  h.Alive b

/-- Method `(*Backend).SetAlive`. -/
def SetAlive (h : Heap) (b : BackendPtr) (alive : Bool) : Heap :=
  { h with Alive := Function.update h.Alive b alive }

/-! ## Package `balancer`: round robin -/

/-- The `RoundRobin` strategy object: its `uint64` cursor. -/
structure RoundRobin where
  currentIndex : Nat
deriving DecidableEq, Repr

/-- Function `NewRoundRobin`. -/
def NewRoundRobin (currentIndex : Nat) : RoundRobin :=
  { currentIndex := currentIndex }

/-- Function `getNextIndex`: `int(atomic.AddUint64(&rr.currentIndex, 1) % uint64(countBackends))`.
The increment is performed first; the modulo panics when the count is zero. -/
def RoundRobin.getNextIndex (rr : RoundRobin) (countBackends : Nat) :
    Except GoPanic Nat × RoundRobin :=
  let v := (rr.currentIndex + 1) % 2 ^ 64
  (if countBackends = 0 then Except.error GoPanic.integerDivideByZero
   else Except.ok (v % countBackends),
   { currentIndex := v })

/-- The loop `for i := nextIndex; i < end; i++` of `NextBackend`, with
`remaining = end - i` iterations left to run. -/
def RoundRobin.scan (h : Heap) (backends : List BackendPtr) (countBackends nextIndex : Nat) :
    Nat → Nat → RoundRobin → Except GoPanic (Option BackendPtr) × RoundRobin
  | 0, _, rr => (Except.ok none, rr)
  | remaining + 1, i, rr =>
    let index := i % countBackends
    match backends[index]? with
    | none => (Except.error GoPanic.indexOutOfRange, rr)
    | some b =>
      if IsAlive h b then
        (Except.ok (some b), if i ≠ nextIndex then { currentIndex := index } else rr)
      else
        RoundRobin.scan h backends countBackends nextIndex remaining (i + 1) rr

/-- Method `(*RoundRobin).NextBackend`. The result `Except.ok none` is Go's `nil`. -/
def RoundRobin.NextBackend (h : Heap) (rr : RoundRobin) (backends : List BackendPtr) :
    Except GoPanic (Option BackendPtr) × RoundRobin :=
  let countBackends := backends.length
  match rr.getNextIndex countBackends with
  | (Except.error p, rr1) => (Except.error p, rr1)
  | (Except.ok nextIndex, rr1) =>
    -- end := countBackends + nextIndex, so end - nextIndex = countBackends
    RoundRobin.scan h backends countBackends nextIndex countBackends nextIndex rr1

/-- Consecutive calls of `NextBackend` on one list, liveness unchanged between
them: the results in call order and the final cursor. -/
def RoundRobin.calls (h : Heap) (backends : List BackendPtr) :
    Nat → RoundRobin → List (Except GoPanic (Option BackendPtr)) × RoundRobin
  | 0, rr => ([], rr)
  | n + 1, rr =>
    let r := rr.NextBackend h backends
    let rest := RoundRobin.calls h backends n r.2
    (r.1 :: rest.1, rest.2)

/-! ## Package `balancer`: the load balancer -/

/-- Type `config.BalancerConfig`. -/
structure BalancerConfig where
  Backends : List String
  HealthCheckTime : Nat

/-- The `LoadBalancer` object: the pool and its strategy (a `*RoundRobin`). -/
structure LoadBalancer where
  serverPool : List BackendPtr
  strategy : RoundRobin
deriving DecidableEq, Repr

/-- One pass of the loop of `NewLoadBalancer` over an address: an address that
`url.Parse` rejects is logged and skipped, otherwise a backend is allocated and
appended. -/
def NewLoadBalancer.step (urlParse : String → Except String URL)
    (acc : List BackendPtr × Heap) (addr : String) : List BackendPtr × Heap :=
  match urlParse addr with
  | Except.error _ => acc
  | Except.ok serverURL =>
    let r := NewBackend (some serverURL) acc.2
    (acc.1 ++ [r.1], r.2)

/-- Function `NewLoadBalancer`, with `url.Parse` of the standard library as a parameter.
The health-check loop it starts is the event `Event.healthCheck` below. -/
def NewLoadBalancer (urlParse : String → Except String URL) (cfg : BalancerConfig)
    (h : Heap) : LoadBalancer × Heap :=
  let r := cfg.Backends.foldl (NewLoadBalancer.step urlParse) ([], h)
  ({ serverPool := r.1, strategy := NewRoundRobin 1 }, r.2)

/-- What forwarding a request to a backend comes to: a response of the backend
with its status, or a transport failure, on which the reverse proxy runs its
`ErrorHandler`. -/
inductive ForwardResult where
  | response (status : Nat)
  | transportError
deriving DecidableEq, Repr

/-- What the caller of `Route` observes: the status written to the response
and the backend whose `ReverseProxy.ServeHTTP` was run, if any. -/
structure RouteResult where
  status : Nat
  forwardedTo : Option BackendPtr
deriving DecidableEq, Repr

/-- Constant `http.StatusServiceUnavailable`. -/
def StatusServiceUnavailable : Nat := 503

/-- Constant `http.StatusOK`. -/
def StatusOK : Nat := 200

/-- Constant `http.StatusTooManyRequests`. -/
def StatusTooManyRequests : Nat := 429

/-- Constant `http.StatusInternalServerError`. -/
def StatusInternalServerError : Nat := 500

/-- Function `respondNoBackends`: `http.Error(w, ..., 503)`. -/
def respondNoBackends : RouteResult :=
  { status := StatusServiceUnavailable, forwardedTo := none }

/-- Function `getAliveBackends`. -/
def LoadBalancer.getAliveBackends (lb : LoadBalancer) (h : Heap) : List BackendPtr :=
  lb.serverPool.filter (fun b => IsAlive h b)

/-- The `ErrorHandler` installed by `createReverseProxy`: `tag` is the value
found under `backendKey` in the request context (`ok` is `tag.isSome`). The
backend is marked dead and the caller gets 503. -/
def ErrorHandler (tag : Option BackendPtr) (h : Heap) : Nat × Heap :=
  match tag with
  | some backend => (StatusServiceUnavailable, SetAlive h backend false)
  | none => (StatusServiceUnavailable, h)

/-- Method `ReverseProxy.ServeHTTP` of a proxy built by `createReverseProxy`: the
backend's response is relayed, a transport failure goes to `ErrorHandler`. -/
def ReverseProxy.ServeHTTP (fwd : ForwardResult) (tag : Option BackendPtr) (h : Heap) :
    Nat × Heap :=
  match fwd with
  | ForwardResult.response status => (status, h)
  | ForwardResult.transportError => ErrorHandler tag h

/-- Method `(*LoadBalancer).Route`. `fwd b` is what forwarding this request to `b`
comes to. Before forwarding, the log line evaluates `backend.URL.String()`,
which dereferences the URL: on a nil URL the call panics, the cursor having
been advanced by the strategy. -/
def LoadBalancer.Route (fwd : BackendPtr → ForwardResult) (lb : LoadBalancer) (h : Heap) :
    Except GoPanic RouteResult × LoadBalancer × Heap :=
  let aliveBackends := lb.getAliveBackends h
  if aliveBackends.length = 0 then
    (Except.ok respondNoBackends, lb, h)
  else
    match lb.strategy.NextBackend h aliveBackends with
    | (Except.error p, rr) => (Except.error p, { lb with strategy := rr }, h)
    | (Except.ok none, rr) => (Except.ok respondNoBackends, { lb with strategy := rr }, h)
    | (Except.ok (some backend), rr) =>
      match h.URL backend with
      | none => (Except.error GoPanic.nilPointerDereference, { lb with strategy := rr }, h)
      | some _ =>
        let r := ReverseProxy.ServeHTTP (fwd backend) (some backend) h
        (Except.ok { status := r.1, forwardedTo := some backend }, { lb with strategy := rr },
         r.2)

/-- Result of `http.Get`: `err != nil`, and the response (nil is `none`) with
its status code. -/
structure ProbeResult where
  err : Bool
  resp : Option Nat
deriving DecidableEq, Repr

/-- The flag computed by `healthCheck`:
`err == nil && resp != nil && resp.StatusCode == http.StatusOK`. -/
def ProbeResult.alive (r : ProbeResult) : Bool :=
  !r.err && (match r.resp with
    | some statusCode => statusCode == StatusOK
    | none => false)

/-- Body of the loop of `healthCheck` for one pool entry: an entry without URL
is logged and skipped, otherwise the probe decides the flag. -/
def LoadBalancer.healthCheck.step (probe : BackendPtr → ProbeResult) (h : Heap)
    (b : BackendPtr) : Heap :=
  match h.URL b with
  | none => h
  | some _ => SetAlive h b (probe b).alive

/-- Method `(*LoadBalancer).healthCheck`. `probe b` is the result of the `http.Get` on
the URL of `b` issued by this pass. -/
def LoadBalancer.healthCheck (probe : BackendPtr → ProbeResult) (lb : LoadBalancer)
    (h : Heap) : Heap :=
  lb.serverPool.foldl (LoadBalancer.healthCheck.step probe) h

/-- What happens to a running balancer: a request is routed, or the
health-check loop ticks. -/
inductive Event where
  | route (fwd : BackendPtr → ForwardResult)
  | healthCheck (probe : BackendPtr → ProbeResult)

/-- Run a sequence of events; the results of the `Route` calls in order, and
the final state. -/
def LoadBalancer.run : List Event → LoadBalancer → Heap →
    List (Except GoPanic RouteResult) × LoadBalancer × Heap
  | [], lb, h => ([], lb, h)
  | Event.route fwd :: es, lb, h =>
    let r := lb.Route fwd h
    let rest := LoadBalancer.run es r.2.1 r.2.2
    (r.1 :: rest.1, rest.2)
  | Event.healthCheck probe :: es, lb, h =>
    LoadBalancer.run es lb (lb.healthCheck probe h)

/-! ## Package `ratelimiter` -/

/-- The two embedded Lua scripts, by name. -/
inductive Script where
  | allowScript
  | refillScript
deriving DecidableEq, Repr

/-- Dynamic value behind the `interface{}` that `Eval` returns. -/
inductive RedisValue where
  | int64 (n : Int)
  | string (s : String)
  | bool (b : Bool)
  | nil
  | other
deriving DecidableEq, Repr

/-- The pair `(interface{}, error)` returned by `Eval`; `err = none` is a nil
error. -/
structure EvalResult where
  result : RedisValue
  err : Option String
deriving DecidableEq, Repr

/-- Interface `repository.RateLimiterRepository` over a store with states `σ`:
`Eval` gets the script, the keys and the arguments, `Keys` returns
`([]string, error)`. -/
structure RateLimiterRepository (σ : Type) where
  Eval : Script → List String → List Int → σ → EvalResult × σ
  Keys : σ → (List String × Option String) × σ

/-- Prefix of the bucket state keys. -/
def bucketKey : String := "bucket:"

/-- Prefix of the bucket configuration keys. -/
def configKey : String := "config:"

/-- The `TokenBucket` object. -/
structure TokenBucket (σ : Type) where
  client : RateLimiterRepository σ
  defaultCapacity : Int
  defaultRate : Int
  ttl : Int

/-- Method `(*TokenBucket).Allow`; `now` is `time.Now().Unix()`. -/
def TokenBucket.Allow {σ : Type} (t : TokenBucket σ) (now : Int) (ip : String) (s : σ) :
    Bool × σ :=
  let key := bucketKey ++ ip
  let configKey := configKey ++ ip
  let r := t.client.Eval Script.allowScript [key, configKey]
    [now, t.ttl, t.defaultCapacity, t.defaultRate] s
  match r.1.err with
  | some _ => (false, r.2)
  | none =>
    match r.1.result with
    | RedisValue.int64 allowed => (allowed == 1, r.2)
    | _ => (false, r.2)

/-- Consecutive calls of `Allow` for one client, made at the given times with
nothing else touching the store in between: the answers in call order and the
final store. -/
def TokenBucket.allows {σ : Type} (t : TokenBucket σ) (ip : String) :
    List Int → σ → List Bool × σ
  | [], s => ([], s)
  | now :: rest, s =>
    let r := t.Allow now ip s
    let tail := TokenBucket.allows t ip rest r.2
    (r.1 :: tail.1, tail.2)

/-- Function `strings.Split(s, sep)` of the standard library for a separator
of one character: the pieces of `s` between the occurrences of `sep`. -/
def stringsSplit (s : String) (sep : Char) : List String :=
  (s.data.splitOn sep).map String.mk

/-- The expression `configKey + strings.Split(stateKey, ":")[1]` in the loop
of `refill`; the index panics when the split has no second piece. -/
def TokenBucket.refill.configKeyOf (stateKey : String) : Except GoPanic String :=
  match (stringsSplit stateKey ':')[1]? with
  | none => Except.error GoPanic.indexOutOfRange
  | some piece => Except.ok (configKey ++ piece)

/-- The loop `for _, stateKey := range stateKeys` of `refill`: an error of
`Eval` is logged and the loop goes on. -/
def TokenBucket.refill.loop {σ : Type} (t : TokenBucket σ) (now : Int) :
    List String → σ → Except GoPanic Unit × σ
  | [], s => (Except.ok (), s)
  | stateKey :: rest, s =>
    match TokenBucket.refill.configKeyOf stateKey with
    | Except.error p => (Except.error p, s)
    | Except.ok configKey =>
      let r := t.client.Eval Script.refillScript [stateKey, configKey] [now, t.ttl] s
      TokenBucket.refill.loop t now rest r.2

/-- Method `(*TokenBucket).refill`; `now` is `time.Now().Unix()`, read once
before the loop. -/
def TokenBucket.refill {σ : Type} (t : TokenBucket σ) (now : Int) (s : σ) :
    Except GoPanic Unit × σ :=
  let r := t.client.Keys s
  match r.1.2 with
  | some _ => (Except.ok (), r.2)
  | none =>
    if r.1.1.length = 0 then
      (Except.ok (), r.2)
    else
      TokenBucket.refill.loop t now r.1.1 r.2

/-- One call of `Eval` as the repository receives it. -/
structure EvalCall where
  script : Script
  keys : List String
  args : List Int
deriving DecidableEq, Repr

/-- A repository that answers as `client` does and keeps, next to the store of
`client`, the list of the `Eval` calls it received, oldest first. -/
def recording {σ : Type} (client : RateLimiterRepository σ) :
    RateLimiterRepository (σ × List EvalCall) where
  Eval script keys args s :=
    let r := client.Eval script keys args s.1
    (r.1, (r.2, s.2 ++ [EvalCall.mk script keys args]))
  Keys s :=
    let r := client.Keys s.1
    (r.1, (r.2, s.2))

/-! ## The store and the admission script -/

/-- Bucket state of one client in the store: the token count, the time of the
last refill and the expiry set on the entry. -/
structure Bucket where
  tokens : Int
  lastRefill : Int
  ttl : Int
deriving DecidableEq, Repr

/-- Configuration entry of one client in the store: the capacity and rate that
override the defaults. -/
structure BucketConfig where
  capacity : Int
  rate : Int
deriving DecidableEq, Repr

/-- The shared store: bucket state and configuration entries by key. -/
structure Store where
  buckets : String → Option Bucket
  configs : String → Option BucketConfig

/-- The token count the admission script works on for a client: the count of
the bucket when the store holds one, and otherwise the capacity a fresh bucket
is filled to, that of the configuration entry if there is one, else the
default. -/
def Store.tokensOf (s : Store) (key cfgKey : String) (capacity : Int) : Int :=
  match s.buckets key with
  | some b => b.tokens
  | none =>
    match s.configs cfgKey with
    | some c => c.capacity
    | none => capacity

/-- Modelled from the spec: the admission script `allow_script.lua`, which the
package embeds and the sources do not contain. Keys are the bucket key and the
config key, arguments the time, the TTL, the default capacity and the default
rate. On first access the bucket is created full, at the capacity of the
config entry if one exists and else at the default. If at least one token is
available it is consumed, the state is stored with the TTL refreshed and the
script returns 1; otherwise it returns 0 and only the TTL is refreshed. -/
def allowScriptModel (keys : List String) (args : List Int) (s : Store) : EvalResult × Store :=
  match keys, args with
  | [key, cfgKey], [now, ttl, capacity, _] =>
    let b : Bucket :=
      match s.buckets key with
      | some b => b
      | none => { tokens := s.tokensOf key cfgKey capacity, lastRefill := now, ttl := ttl }
    if 1 ≤ b.tokens then
      let consumed : Bucket := { b with tokens := b.tokens - 1, ttl := ttl }
      ({ result := RedisValue.int64 1, err := none },
       { s with buckets := Function.update s.buckets key (some consumed) })
    else
      let kept : Bucket := { b with ttl := ttl }
      ({ result := RedisValue.int64 0, err := none },
       { s with buckets := Function.update s.buckets key (some kept) })
  | _, _ => ({ result := RedisValue.nil, err := some "wrong number of keys or arguments" }, s)

/-- A repository over the store that runs the admission script as modelled;
the refill script and the key enumeration do nothing. -/
def admissionOnly : RateLimiterRepository Store where
  Eval script keys args s :=
    match script with
    | Script.allowScript => allowScriptModel keys args s
    | Script.refillScript => ({ result := RedisValue.nil, err := none }, s)
  Keys s := (([], none), s)

/-! ## Package `handler` -/

/-- The interfaces `services.RateLimiter` and `services.Balancer` held by the
handler: `Allow` over limiter states `σ`, `Route` over balancer states `β`
writing a response `ρ`. -/
structure Services (σ β ρ : Type) where
  RateLimiter : String → σ → Bool × σ
  LoadBalancer : β → ρ × β

/-- What `ServeHTTP` writes: a JSON error of its own, or what `Route` wrote. -/
inductive Response (ρ : Type) where
  | json (statusCode : Nat) (message : String)
  | routed (r : ρ)
deriving DecidableEq, Repr

/-- Function `getClientIP`, with `net.SplitHostPort` as a parameter. -/
def getClientIP (splitHostPort : String → Except String (String × String))
    (remoteAddr : String) : Except String String :=
  match splitHostPort remoteAddr with
  | Except.error err => Except.error err
  | Except.ok (host, _) => Except.ok host

/-- Method `(*Handler).ServeHTTP` for a request with the given `RemoteAddr`. -/
def Handler.ServeHTTP {σ β ρ : Type} (splitHostPort : String → Except String (String × String))
    (services : Services σ β ρ) (remoteAddr : String) (s : σ) (b : β) :
    Response ρ × σ × β :=
  match getClientIP splitHostPort remoteAddr with
  | Except.error _ =>
    (Response.json StatusInternalServerError "internal server error", s, b)
  | Except.ok clientIP =>
    let a := services.RateLimiter clientIP s
    if !a.1 then
      (Response.json StatusTooManyRequests "Too many request from your IP", a.2, b)
    else
      let r := services.LoadBalancer b
      (Response.routed r.1, a.2, r.2)

/-! ## Reference definitions, following the wording of the specification -/

/-- Scan the list forward from position `start` to its end, then wrap around
and go on from the beginning up to `start`; the first backend met whose flag
is alive. -/
def firstAliveFrom (h : Heap) (backends : List BackendPtr) (start : Nat) : Option BackendPtr :=
  (backends.drop start ++ backends.take start).find? (fun b => IsAlive h b)

/-! ## Round robin: the scan finds the first live entry in cyclic order -/

theorem take_rotate_succ (l : List BackendPtr) (n i : Nat) (b : BackendPtr)
    (hn : n + 1 ≤ l.length) (hb : l[i % l.length]? = some b) :
    (l.rotate i).take (n + 1) = b :: (l.rotate (i + 1)).take n := by
  apply List.ext_getElem?
  intro k
  rcases k with _ | k
  · have h0 : 0 < l.length := by omega
    simp [List.getElem?_take, List.getElem?_rotate h0, hb]
  · by_cases hk : k < n
    · have h1 : k + 1 < l.length := by omega
      have h2 : k < l.length := by omega
      have h3 : k + 1 + i = k + (i + 1) := by omega
      simp [List.getElem?_take, hk, List.getElem?_rotate h1, List.getElem?_rotate h2, h3]
    · simp [List.getElem?_take, hk]

theorem scan_result (h : Heap) (bs : List BackendPtr) (start : Nat) :
    ∀ (n i : Nat) (rr : RoundRobin), n ≤ bs.length →
      (RoundRobin.scan h bs bs.length start n i rr).1
        = Except.ok (((bs.rotate i).take n).find? (fun b => IsAlive h b)) := by
  intro n
  induction n with
  | zero => intro i rr _; simp [RoundRobin.scan]
  | succ n ih =>
    intro i rr hn
    have hlt : i % bs.length < bs.length := Nat.mod_lt _ (by omega)
    have hb : bs[i % bs.length]? = some (bs[i % bs.length]) := List.getElem?_eq_getElem hlt
    rw [take_rotate_succ bs n i _ hn hb]
    simp only [RoundRobin.scan, hb]
    by_cases ha : IsAlive h (bs[i % bs.length]) = true
    · simp [ha]
    · simp only [ha, if_false, Bool.false_eq_true]
      rw [ih (i + 1) rr (by omega)]
      simp [List.find?_cons, ha]

theorem NextBackend_result (h : Heap) (rr : RoundRobin) (bs : List BackendPtr) (hne : bs ≠ []) :
    (rr.NextBackend h bs).1
      = Except.ok ((bs.rotate ((rr.currentIndex + 1) % 2 ^ 64 % bs.length)).find?
          (fun b => IsAlive h b)) := by
  have hlen : bs.length ≠ 0 := by
    intro h0; exact hne (List.length_eq_zero.mp h0)
  simp only [RoundRobin.NextBackend, RoundRobin.getNextIndex, hlen, if_false]
  rw [scan_result h bs _ bs.length _ _ (Nat.le_refl _)]
  congr 2
  rw [List.take_of_length_le (by simp)]

theorem firstAliveFrom_eq_rotate (h : Heap) (bs : List BackendPtr) (start : Nat)
    (hs : start ≤ bs.length) :
    firstAliveFrom h bs start = (bs.rotate start).find? (fun b => IsAlive h b) := by
  rw [firstAliveFrom, List.rotate_eq_drop_append_take hs]

/-- C2. On a non-empty list `NextBackend` returns (without failing) the first
alive backend met when scanning forward with wrap-around from the starting
index, the incremented cursor modulo the count; what it returns is alive and
in the list, and it returns nil exactly when no backend of the list is alive. -/
theorem C2_NextBackend_first_alive (h : Heap) (rr : RoundRobin) (bs : List BackendPtr)
    (hne : bs ≠ []) :
    (rr.NextBackend h bs).1
        = Except.ok (firstAliveFrom h bs ((rr.currentIndex + 1) % 2 ^ 64 % bs.length))
      ∧ (∀ b, (rr.NextBackend h bs).1 = Except.ok (some b) → IsAlive h b = true ∧ b ∈ bs)
      ∧ ((rr.NextBackend h bs).1 = Except.ok none ↔ ∀ b ∈ bs, IsAlive h b = false) := by
  have hpos : 0 < bs.length := List.length_pos.mpr hne
  have hr := NextBackend_result h rr bs hne
  refine ⟨?_, ?_, ?_⟩
  · rw [hr, firstAliveFrom_eq_rotate h bs _ (Nat.le_of_lt (Nat.mod_lt _ hpos))]
  · intro b hb
    rw [hr] at hb
    have hf := Except.ok.inj hb
    exact ⟨List.find?_some hf, List.mem_rotate.mp (List.mem_of_find?_eq_some hf)⟩
  · rw [hr]
    constructor
    · intro hnone b hb
      have hf := List.find?_eq_none.mp (Except.ok.inj hnone) b (List.mem_rotate.mpr hb)
      simpa using hf
    · intro hall
      congr 1
      apply List.find?_eq_none.mpr
      intro b hb
      simp [hall b (List.mem_rotate.mp hb)]

/-- Witness of C2: three backends of which the first two are dead, cursor 0. -/
theorem C2_NextBackend_first_alive_witness :
    [10, 11, 12] ≠ ([] : List BackendPtr) ∧
    ((NewRoundRobin 0).NextBackend ⟨fun _ => none, fun b => b == 12, 13⟩ [10, 11, 12]).1
        = Except.ok (firstAliveFrom ⟨fun _ => none, fun b => b == 12, 13⟩ [10, 11, 12]
            (((NewRoundRobin 0).currentIndex + 1) % 2 ^ 64 % [10, 11, 12].length))
      ∧ (∀ b, ((NewRoundRobin 0).NextBackend ⟨fun _ => none, fun b => b == 12, 13⟩
            [10, 11, 12]).1 = Except.ok (some b) →
          IsAlive ⟨fun _ => none, fun b => b == 12, 13⟩ b = true ∧ b ∈ [10, 11, 12])
      ∧ (((NewRoundRobin 0).NextBackend ⟨fun _ => none, fun b => b == 12, 13⟩ [10, 11, 12]).1
            = Except.ok none ↔
          ∀ b ∈ [10, 11, 12], IsAlive ⟨fun _ => none, fun b => b == 12, 13⟩ b = false) :=
  ⟨by decide, C2_NextBackend_first_alive ⟨fun _ => none, fun b => b == 12, 13⟩
    (NewRoundRobin 0) [10, 11, 12] (by decide)⟩

/-! ## Round robin over a list of live backends -/

theorem NextBackend_all_alive (h : Heap) (rr : RoundRobin) (bs : List BackendPtr)
    (hne : bs ≠ []) (halive : ∀ b ∈ bs, IsAlive h b = true) :
    rr.NextBackend h bs
      = (Except.ok bs[(rr.currentIndex + 1) % 2 ^ 64 % bs.length]?,
         { currentIndex := (rr.currentIndex + 1) % 2 ^ 64 }) := by
  have hpos : 0 < bs.length := List.length_pos.mpr hne
  have hlen : bs.length ≠ 0 := by omega
  obtain ⟨m, hm⟩ : ∃ m, bs.length = m + 1 := ⟨bs.length - 1, by omega⟩
  have hlt : (rr.currentIndex + 1) % 2 ^ 64 % bs.length < bs.length := Nat.mod_lt _ hpos
  have hb := List.getElem?_eq_getElem hlt
  have ha := halive _ (List.getElem_mem hlt)
  simp only [RoundRobin.NextBackend, RoundRobin.getNextIndex, hlen, if_false]
  rw [show RoundRobin.scan h bs bs.length ((rr.currentIndex + 1) % 2 ^ 64 % bs.length)
        bs.length ((rr.currentIndex + 1) % 2 ^ 64 % bs.length)
        { currentIndex := (rr.currentIndex + 1) % 2 ^ 64 }
      = RoundRobin.scan h bs bs.length ((rr.currentIndex + 1) % 2 ^ 64 % bs.length)
        (m + 1) ((rr.currentIndex + 1) % 2 ^ 64 % bs.length)
        { currentIndex := (rr.currentIndex + 1) % 2 ^ 64 } by rw [← hm]]
  simp only [RoundRobin.scan, Nat.mod_mod, hb, ha, if_true, ne_eq, not_true_eq_false, if_false]

theorem calls_all_alive (h : Heap) (bs : List BackendPtr) (hne : bs ≠ [])
    (halive : ∀ b ∈ bs, IsAlive h b = true) :
    ∀ (n c : Nat),
      RoundRobin.calls h bs n { currentIndex := c }
        = ((List.range n).map (fun k => Except.ok bs[(c + 1 + k) % 2 ^ 64 % bs.length]?),
           { currentIndex := if n = 0 then c else (c + n) % 2 ^ 64 }) := by
  intro n
  induction n with
  | zero => intro c; simp [RoundRobin.calls]
  | succ n ih =>
    intro c
    simp only [RoundRobin.calls, NextBackend_all_alive h _ bs hne halive, ih]
    have hk : ∀ k, ((c + 1) % 2 ^ 64 + 1 + k) % 2 ^ 64 = (c + 1 + (k + 1)) % 2 ^ 64 := by
      intro k; omega
    have hn : (if n = 0 then (c + 1) % 2 ^ 64 else ((c + 1) % 2 ^ 64 + n) % 2 ^ 64)
        = (c + (n + 1)) % 2 ^ 64 := by
      split
      · subst n; rfl
      · omega
    simp only [hk, hn, Nat.succ_ne_zero, if_false, List.range_succ_eq_map, List.map_cons,
      List.map_map, Nat.add_zero]
    rfl

theorem cyclic_index (c n k : Nat) (hwrap : c + n < 2 ^ 64 ∨ n ∣ 2 ^ 64) (hk : k < n) :
    (c + 1 + k) % 2 ^ 64 % n = (k + (c % n + 1)) % n := by
  have h1 : (c + 1 + k) % 2 ^ 64 % n = (c + 1 + k) % n := by
    rcases hwrap with hw | hd
    · rw [Nat.mod_eq_of_lt (show c + 1 + k < 2 ^ 64 by omega)]
    · exact Nat.mod_mod_of_dvd _ hd
  have h2 : k + (c % n + 1) = k + 1 + c % n := by omega
  have h3 : c + 1 + k = k + 1 + c := by omega
  rw [h1, h2, Nat.add_mod_mod, h3]

/-- C1, as amended. For a non-empty list of `N` backends that are all alive and
a cursor `c` such that the counter does not wrap around `2 ^ 64` during the
calls (`c + N < 2 ^ 64`) or `N` divides `2 ^ 64`, `N` consecutive calls of
`NextBackend` return the entries of the list, each position exactly once, in
cyclic list order starting at the position after the prior cursor position
`c % N`: the results are the list rotated by `c % N + 1`, hence a permutation
of the list. -/
theorem C1_roundRobin_cycle (h : Heap) (bs : List BackendPtr) (c : Nat) (hne : bs ≠ [])
    (halive : ∀ b ∈ bs, IsAlive h b = true)
    (hwrap : c + bs.length < 2 ^ 64 ∨ bs.length ∣ 2 ^ 64) :
    (RoundRobin.calls h bs bs.length { currentIndex := c }).1
        = (bs.rotate (c % bs.length + 1)).map (fun b => Except.ok (some b))
      ∧ List.Perm (RoundRobin.calls h bs bs.length { currentIndex := c }).1
          (bs.map (fun b => Except.ok (some b))) := by
  have hpos : 0 < bs.length := List.length_pos.mpr hne
  have heq : (RoundRobin.calls h bs bs.length { currentIndex := c }).1
      = (bs.rotate (c % bs.length + 1)).map (fun b => Except.ok (some b)) := by
    rw [calls_all_alive h bs hne halive]
    apply List.ext_getElem?
    intro k
    by_cases hk : k < bs.length
    · have hlt : (k + (c % bs.length + 1)) % bs.length < bs.length := Nat.mod_lt _ hpos
      have hidx := cyclic_index c bs.length k hwrap hk
      simp only [Nat.reducePow] at hidx
      simp [List.getElem?_map, List.getElem?_range hk, List.getElem?_rotate hk,
        hidx, List.getElem?_eq_getElem hlt]
    · have h1 : (List.range bs.length).length ≤ k := by simp; omega
      have h2 : (bs.rotate (c % bs.length + 1)).length ≤ k := by simp; omega
      simp [List.getElem?_map, List.getElem?_eq_none h1, List.getElem?_eq_none h2]
  exact ⟨heq, heq ▸ (List.rotate_perm bs _).map _⟩

/-- Witness of C1 as amended: three live backends, cursor 7. -/
theorem C1_roundRobin_cycle_witness :
    ([10, 11, 12] : List BackendPtr) ≠ []
      ∧ (∀ b ∈ ([10, 11, 12] : List BackendPtr), IsAlive ⟨fun _ => none, fun _ => true, 13⟩ b = true)
      ∧ (7 + ([10, 11, 12] : List BackendPtr).length < 2 ^ 64
          ∨ ([10, 11, 12] : List BackendPtr).length ∣ 2 ^ 64)
      ∧ (RoundRobin.calls ⟨fun _ => none, fun _ => true, 13⟩ [10, 11, 12]
            ([10, 11, 12] : List BackendPtr).length { currentIndex := 7 }).1
          = [Except.ok (some 12), Except.ok (some 10), Except.ok (some 11)] :=
  ⟨by decide, by intro b _; rfl, Or.inl (by decide),
   (C1_roundRobin_cycle ⟨fun _ => none, fun _ => true, 13⟩ [10, 11, 12] 7 (by decide)
      (by intro b _; rfl) (Or.inl (by decide))).1.trans rfl⟩

/-- Counterexample to C1 as stated (every cursor value): with three distinct
live backends and cursor `2 ^ 64 - 2` the counter wraps during the three calls
and the first backend is returned twice, the third never. -/
theorem C1_counterexample_wrap :
    ([10, 11, 12] : List BackendPtr).Nodup
      ∧ (∀ b ∈ ([10, 11, 12] : List BackendPtr), IsAlive ⟨fun _ => none, fun _ => true, 13⟩ b = true)
      ∧ 2 ^ 64 - 2 < 2 ^ 64
      ∧ (RoundRobin.calls ⟨fun _ => none, fun _ => true, 13⟩ [10, 11, 12] 3
            { currentIndex := 2 ^ 64 - 2 }).1
          = [Except.ok (some 10), Except.ok (some 10), Except.ok (some 11)]
      ∧ ¬ (RoundRobin.calls ⟨fun _ => none, fun _ => true, 13⟩ [10, 11, 12] 3
            { currentIndex := 2 ^ 64 - 2 }).1.Nodup := by
  refine ⟨by decide, by intro b _; rfl, by decide, rfl, ?_⟩
  rw [show (RoundRobin.calls ⟨fun _ => none, fun _ => true, 13⟩ [10, 11, 12] 3
            { currentIndex := 2 ^ 64 - 2 }).1
          = [Except.ok (some 10), Except.ok (some 10), Except.ok (some 11)] from rfl]
  simp

/-! ## The empty list -/

/-- C3, as amended. `NextBackend` does not return nil on the empty list: the
modulo by the zero count in `getNextIndex` raises a runtime panic, after the
cursor has been incremented. The empty case is handled by the caller: when
the live subset is empty, `Route` answers 503 without calling the strategy,
leaving the cursor and the flags as they were. -/
theorem C3_empty_list (h : Heap) (rr : RoundRobin) (fwd : BackendPtr → ForwardResult)
    (lb : LoadBalancer) (hempty : lb.getAliveBackends h = []) :
    rr.NextBackend h []
        = (Except.error GoPanic.integerDivideByZero,
           { currentIndex := (rr.currentIndex + 1) % 2 ^ 64 })
      ∧ lb.Route fwd h = (Except.ok respondNoBackends, lb, h) := by
  constructor
  · simp [RoundRobin.NextBackend, RoundRobin.getNextIndex]
  · simp [LoadBalancer.Route, hempty]

/-- Witness of C3 as amended: a pool of two dead backends, cursor 1. -/
theorem C3_empty_list_witness :
    LoadBalancer.getAliveBackends ⟨[10, 11], NewRoundRobin 1⟩ ⟨fun _ => none, fun _ => false, 12⟩ = []
      ∧ (NewRoundRobin 1).NextBackend ⟨fun _ => none, fun _ => false, 12⟩ []
          = (Except.error GoPanic.integerDivideByZero, { currentIndex := 2 })
      ∧ (LoadBalancer.Route (fun _ => ForwardResult.response 200) ⟨[10, 11], NewRoundRobin 1⟩
            ⟨fun _ => none, fun _ => false, 12⟩).1 = Except.ok ⟨503, none⟩ :=
  ⟨rfl,
   (C3_empty_list ⟨fun _ => none, fun _ => false, 12⟩ (NewRoundRobin 1)
      (fun _ => ForwardResult.response 200) ⟨[10, 11], NewRoundRobin 1⟩ rfl).1.trans rfl,
   congrArg Prod.fst (C3_empty_list ⟨fun _ => none, fun _ => false, 12⟩ (NewRoundRobin 1)
      (fun _ => ForwardResult.response 200) ⟨[10, 11], NewRoundRobin 1⟩ rfl).2⟩

/-- Counterexample to C3 as stated: on the empty list, cursor 1, the call
fails with a division by zero and does not return nil. -/
theorem C3_counterexample_empty :
    ((NewRoundRobin 1).NextBackend ⟨fun _ => none, fun _ => true, 0⟩ []).1
        = Except.error GoPanic.integerDivideByZero
      ∧ ((NewRoundRobin 1).NextBackend ⟨fun _ => none, fun _ => true, 0⟩ []).1
        ≠ Except.ok none := by
  constructor
  · rfl
  · intro hc
    cases hc

/-! ## Routing -/

theorem getAliveBackends_alive (lb : LoadBalancer) (h : Heap) :
    ∀ b ∈ lb.getAliveBackends h, IsAlive h b = true := by
  intro b hb
  simpa using (List.mem_filter.mp hb).2

theorem getAliveBackends_eq_nil (lb : LoadBalancer) (h : Heap) :
    lb.getAliveBackends h = [] ↔ ∀ b ∈ lb.serverPool, IsAlive h b = false := by
  simp [LoadBalancer.getAliveBackends, List.filter_eq_nil_iff]

theorem Route_of_alive (fwd : BackendPtr → ForwardResult) (lb : LoadBalancer) (h : Heap)
    (hurl : ∀ b ∈ lb.serverPool, h.URL b ≠ none)
    (hne : lb.getAliveBackends h ≠ []) :
    ∃ b, (lb.getAliveBackends h)[(lb.strategy.currentIndex + 1) % 2 ^ 64
            % (lb.getAliveBackends h).length]? = some b
      ∧ lb.Route fwd h
        = (Except.ok { status := (ReverseProxy.ServeHTTP (fwd b) (some b) h).1,
                       forwardedTo := some b },
           { lb with strategy := { currentIndex := (lb.strategy.currentIndex + 1) % 2 ^ 64 } },
           (ReverseProxy.ServeHTTP (fwd b) (some b) h).2) := by
  have hpos : 0 < (lb.getAliveBackends h).length := List.length_pos.mpr hne
  have hlen : (lb.getAliveBackends h).length ≠ 0 := by omega
  have hlt : (lb.strategy.currentIndex + 1) % 2 ^ 64 % (lb.getAliveBackends h).length
      < (lb.getAliveBackends h).length := Nat.mod_lt _ hpos
  have hpool : (lb.getAliveBackends h)[(lb.strategy.currentIndex + 1) % 2 ^ 64
      % (lb.getAliveBackends h).length] ∈ lb.serverPool :=
    (List.mem_filter.mp (List.getElem_mem hlt)).1
  obtain ⟨u, hu⟩ := Option.ne_none_iff_exists'.mp (hurl _ hpool)
  refine ⟨_, List.getElem?_eq_getElem hlt, ?_⟩
  simp only [LoadBalancer.Route, hlen, if_false,
    NextBackend_all_alive h _ _ hne (getAliveBackends_alive lb h), List.getElem?_eq_getElem hlt,
    hu]

/-- On a selected backend whose URL is nil, `Route` panics at the log line,
with the cursor already advanced and nothing forwarded. -/
theorem Route_nil_URL_panics :
    (LoadBalancer.Route (fun _ => ForwardResult.response 200) ⟨[10], NewRoundRobin 1⟩
        ⟨fun _ => none, fun _ => true, 11⟩).1 = Except.error GoPanic.nilPointerDereference
      ∧ (LoadBalancer.Route (fun _ => ForwardResult.response 200) ⟨[10], NewRoundRobin 1⟩
        ⟨fun _ => none, fun _ => true, 11⟩).2.1 = ⟨[10], RoundRobin.mk 2⟩ :=
  ⟨rfl, rfl⟩

/-- C4. For a pool whose backends have a URL, as every pool built by
`NewLoadBalancer` has, `Route` always returns; it answers 503 without
forwarding exactly when no backend of the pool is alive (the empty pool
included), and otherwise it forwards the request to one backend, which is a
member of the pool and alive when selected. -/
theorem C4_Route_unavailable_iff_none_alive (fwd : BackendPtr → ForwardResult)
    (lb : LoadBalancer) (h : Heap) (hurl : ∀ b ∈ lb.serverPool, h.URL b ≠ none) :
    ∃ r, (lb.Route fwd h).1 = Except.ok r
      ∧ ((r.status = StatusServiceUnavailable ∧ r.forwardedTo = none)
          ↔ ∀ b ∈ lb.serverPool, IsAlive h b = false)
      ∧ ((¬ ∀ b ∈ lb.serverPool, IsAlive h b = false)
          ↔ ∃ b, r.forwardedTo = some b ∧ b ∈ lb.serverPool ∧ IsAlive h b = true) := by
  by_cases hnil : lb.getAliveBackends h = []
  · have hdead := (getAliveBackends_eq_nil lb h).mp hnil
    refine ⟨respondNoBackends, by simp [LoadBalancer.Route, hnil], ?_, ?_⟩
    · simp only [respondNoBackends, and_self, true_iff]
      exact hdead
    · constructor
      · intro hc; exact absurd hdead hc
      · rintro ⟨b, hb, _, _⟩
        simp [respondNoBackends] at hb
  · obtain ⟨b, hb, hr⟩ := Route_of_alive fwd lb h hurl hnil
    have hmem : b ∈ lb.getAliveBackends h := List.getElem?_mem hb
    have hpool : b ∈ lb.serverPool := (List.mem_filter.mp hmem).1
    have halive : IsAlive h b = true := getAliveBackends_alive lb h b hmem
    refine ⟨_, congrArg Prod.fst hr, ?_, ?_⟩
    · constructor
      · rintro ⟨_, hc⟩
        simp at hc
      · intro hdead
        rw [hdead b hpool] at halive
        cases halive
    · constructor
      · intro _
        exact ⟨b, rfl, hpool, halive⟩
      · rintro ⟨_, _, _, _⟩ hdead
        rw [hdead b hpool] at halive
        cases halive

/-- Witness of C4: of three backends with URLs only 11 is alive; from cursor 1
the request is forwarded to 11 and the backend's 200 is relayed. -/
theorem C4_Route_unavailable_iff_none_alive_witness :
    (∀ b ∈ [10, 11, 12], (fun _ => some "u" : BackendPtr → Option URL) b ≠ none)
      ∧ (LoadBalancer.Route (fun _ => ForwardResult.response 200) ⟨[10, 11, 12], NewRoundRobin 1⟩
          ⟨fun _ => some "u", fun b => b == 11, 13⟩).1 = Except.ok ⟨200, some 11⟩
      ∧ ∃ r, (LoadBalancer.Route (fun _ => ForwardResult.response 200)
            ⟨[10, 11, 12], NewRoundRobin 1⟩ ⟨fun _ => some "u", fun b => b == 11, 13⟩).1
          = Except.ok r
        ∧ ((r.status = StatusServiceUnavailable ∧ r.forwardedTo = none)
            ↔ ∀ b ∈ [10, 11, 12], IsAlive ⟨fun _ => some "u", fun b => b == 11, 13⟩ b = false)
        ∧ ((¬ ∀ b ∈ [10, 11, 12], IsAlive ⟨fun _ => some "u", fun b => b == 11, 13⟩ b = false)
            ↔ ∃ b, r.forwardedTo = some b ∧ b ∈ [10, 11, 12]
              ∧ IsAlive ⟨fun _ => some "u", fun b => b == 11, 13⟩ b = true) :=
  ⟨by intro b _; simp, rfl,
   C4_Route_unavailable_iff_none_alive (fun _ => ForwardResult.response 200)
     ⟨[10, 11, 12], NewRoundRobin 1⟩ ⟨fun _ => some "u", fun b => b == 11, 13⟩
     (by intro b _; simp)⟩

/-- C5. In a pool with at least two alive backends, all with a URL as every
pool built by `NewLoadBalancer` has, when `Route` forwards a request to `b`
and the forwarding fails (the proxy's `ErrorHandler` runs with the request
tagged `b`), `b` is marked dead, the caller receives 503, and the next `Route`
call, made on the resulting state, forwards to a backend of the pool that is
alive and is not `b`. -/
theorem C5_failed_forward_marks_dead (fwd fwd2 : BackendPtr → ForwardResult)
    (lb : LoadBalancer) (h : Heap) (b : BackendPtr) (r : RouteResult)
    (hurl : ∀ b ∈ lb.serverPool, h.URL b ≠ none)
    (htwo : ∃ b1 ∈ lb.serverPool, ∃ b2 ∈ lb.serverPool,
      b1 ≠ b2 ∧ IsAlive h b1 = true ∧ IsAlive h b2 = true)
    (hroute : (lb.Route fwd h).1 = Except.ok r) (hto : r.forwardedTo = some b)
    (hfail : fwd b = ForwardResult.transportError) :
    IsAlive (lb.Route fwd h).2.2 b = false
      ∧ r.status = StatusServiceUnavailable
      ∧ ∃ r2 b2, ((lb.Route fwd h).2.1.Route fwd2 (lb.Route fwd h).2.2).1 = Except.ok r2
          ∧ r2.forwardedTo = some b2 ∧ b2 ≠ b ∧ b2 ∈ lb.serverPool
          ∧ IsAlive (lb.Route fwd h).2.2 b2 = true := by
  obtain ⟨b1, hb1, b2, hb2, hne12, ha1, ha2⟩ := htwo
  have hne : lb.getAliveBackends h ≠ [] := by
    intro hnil
    rw [(getAliveBackends_eq_nil lb h).mp hnil b1 hb1] at ha1
    cases ha1
  obtain ⟨b0, _, hr⟩ := Route_of_alive fwd lb h hurl hne
  rw [hr] at hroute
  have hr0 := Except.ok.inj hroute
  subst hr0
  have hbb : b0 = b := Option.some.inj hto
  subst hbb
  have hserve : ReverseProxy.ServeHTTP (fwd b0) (some b0) h
      = (StatusServiceUnavailable, SetAlive h b0 false) := by
    rw [hfail]; rfl
  rw [hserve] at hr
  simp only [hr, hserve]
  have hdead : IsAlive (SetAlive h b0 false) b0 = false := by
    simp [IsAlive, SetAlive]
  have hother : ∃ x ∈ lb.serverPool, IsAlive (SetAlive h b0 false) x = true := by
    by_cases hx : b1 = b0
    · refine ⟨b2, hb2, ?_⟩
      have : b2 ≠ b0 := fun hc => hne12 (hx.trans hc.symm)
      simpa [IsAlive, SetAlive, Function.update_noteq this] using ha2
    · refine ⟨b1, hb1, ?_⟩
      simpa [IsAlive, SetAlive, Function.update_noteq hx] using ha1
  obtain ⟨x, hxp, hxa⟩ := hother
  have hne2 : LoadBalancer.getAliveBackends
      { lb with strategy := { currentIndex := (lb.strategy.currentIndex + 1) % 2 ^ 64 } }
      (SetAlive h b0 false) ≠ [] := by
    intro hnil
    rw [(getAliveBackends_eq_nil _ _).mp hnil x hxp] at hxa
    cases hxa
  have hurl2 : ∀ x ∈ (LoadBalancer.mk lb.serverPool
      { currentIndex := (lb.strategy.currentIndex + 1) % 2 ^ 64 }).serverPool,
      (SetAlive h b0 false).URL x ≠ none := hurl
  obtain ⟨b3, hb3, hr2⟩ := Route_of_alive fwd2 _ _ hurl2 hne2
  have hmem := List.getElem?_mem hb3
  have hpool : b3 ∈ lb.serverPool := (List.mem_filter.mp hmem).1
  have halive : IsAlive (SetAlive h b0 false) b3 = true := getAliveBackends_alive _ _ b3 hmem
  refine ⟨hdead, trivial, _, b3, congrArg Prod.fst hr2, rfl, ?_, hpool, halive⟩
  intro hc
  rw [hc, hdead] at halive
  cases halive

/-- Witness of C5: a pool of three live backends, cursor 1; the request is
forwarded to backend 12, the forwarding fails, the next one goes to 10. -/
theorem C5_failed_forward_marks_dead_witness :
    (∀ b ∈ [10, 11, 12], (fun _ => some "u" : BackendPtr → Option URL) b ≠ none)
      ∧ (∃ b1 ∈ [10, 11, 12], ∃ b2 ∈ [10, 11, 12],
        b1 ≠ b2 ∧ IsAlive ⟨fun _ => some "u", fun _ => true, 13⟩ b1 = true
          ∧ IsAlive ⟨fun _ => some "u", fun _ => true, 13⟩ b2 = true)
      ∧ (LoadBalancer.Route (fun _ => ForwardResult.transportError) ⟨[10, 11, 12], NewRoundRobin 1⟩
          ⟨fun _ => some "u", fun _ => true, 13⟩).1 = Except.ok ⟨503, some 12⟩
      ∧ IsAlive (LoadBalancer.Route (fun _ => ForwardResult.transportError)
          ⟨[10, 11, 12], NewRoundRobin 1⟩ ⟨fun _ => some "u", fun _ => true, 13⟩).2.2 12 = false :=
  ⟨by intro b _; simp, ⟨10, by decide, 11, by decide, by decide, rfl, rfl⟩, rfl,
   (C5_failed_forward_marks_dead (fun _ => ForwardResult.transportError)
      (fun _ => ForwardResult.response 200) ⟨[10, 11, 12], NewRoundRobin 1⟩
      ⟨fun _ => some "u", fun _ => true, 13⟩ 12 ⟨503, some 12⟩
      (by intro b _; simp)
      ⟨10, by decide, 11, by decide, by decide, rfl, rfl⟩ rfl rfl rfl).1⟩

/-! ## Health check -/

theorem ProbeResult.alive_iff (r : ProbeResult) :
    r.alive = true ↔ r.err = false ∧ r.resp = some StatusOK := by
  rcases r with ⟨err, resp⟩
  cases err <;> cases resp <;> simp [ProbeResult.alive]

theorem healthCheck_foldl (probe : BackendPtr → ProbeResult) :
    ∀ (l : List BackendPtr) (h : Heap),
      (l.foldl (LoadBalancer.healthCheck.step probe) h).URL = h.URL
        ∧ ∀ b, (l.foldl (LoadBalancer.healthCheck.step probe) h).Alive b
            = if b ∈ l ∧ h.URL b ≠ none then (probe b).alive else h.Alive b := by
  intro l
  induction l with
  | nil => intro h; simp
  | cons a l ih =>
    intro h
    have hurl : (LoadBalancer.healthCheck.step probe h a).URL = h.URL := by
      unfold LoadBalancer.healthCheck.step
      cases h.URL a <;> rfl
    obtain ⟨ih1, ih2⟩ := ih (LoadBalancer.healthCheck.step probe h a)
    refine ⟨by rw [List.foldl_cons, ih1, hurl], ?_⟩
    intro b
    rw [List.foldl_cons, ih2 b, hurl]
    by_cases hbl : b ∈ l ∧ h.URL b ≠ none
    · have : b ∈ a :: l ∧ h.URL b ≠ none := ⟨List.mem_cons_of_mem _ hbl.1, hbl.2⟩
      rw [if_pos hbl, if_pos this]
    · rw [if_neg hbl]
      by_cases hba : b = a
      · subst hba
        cases hu : h.URL b with
        | none => simp [LoadBalancer.healthCheck.step, hu]
        | some u => simp [LoadBalancer.healthCheck.step, hu, SetAlive]
      · have hstep : (LoadBalancer.healthCheck.step probe h a).Alive b = h.Alive b := by
          unfold LoadBalancer.healthCheck.step
          cases h.URL a with
          | none => rfl
          | some u => simp [SetAlive, Function.update_noteq hba]
        have hnot : ¬ (b ∈ a :: l ∧ h.URL b ≠ none) := by
          rintro ⟨hm, hu⟩
          rcases List.mem_cons.mp hm with hm | hm
          · exact hba hm
          · exact hbl ⟨hm, hu⟩
        rw [if_neg hnot, hstep]

/-- C6. For every backend of the pool whose URL is not nil, whatever its flag
was before and whatever the probes return, after `healthCheck` its flag is
true exactly when its probe ended without error, with a response, whose
status is 200: a dead backend answering 200 is alive again, an alive one with
any other outcome is dead. -/
theorem C6_healthCheck_flag_iff_probe_ok (probe : BackendPtr → ProbeResult)
    (lb : LoadBalancer) (h : Heap) (b : BackendPtr) (hb : b ∈ lb.serverPool)
    (hurl : h.URL b ≠ none) :
    IsAlive (lb.healthCheck probe h) b = true
      ↔ (probe b).err = false ∧ (probe b).resp = some StatusOK := by
  unfold IsAlive LoadBalancer.healthCheck
  rw [(healthCheck_foldl probe lb.serverPool h).2 b, if_pos ⟨hb, hurl⟩]
  exact ProbeResult.alive_iff _

/-- Witness of C6: backend 10 is dead and answers 200, backend 11 is alive and
answers 500; after the pass 10 is alive. -/
theorem C6_healthCheck_flag_iff_probe_ok_witness :
    10 ∈ [10, 11] ∧ (fun _ => some "u" : BackendPtr → Option URL) 10 ≠ none
      ∧ (IsAlive (LoadBalancer.healthCheck
            (fun b => if b = 10 then ⟨false, some 200⟩ else ⟨false, some 500⟩)
            ⟨[10, 11], NewRoundRobin 1⟩ ⟨fun _ => some "u", fun b => b == 11, 12⟩) 10 = true
          ↔ ((fun b => if b = 10 then ⟨false, some 200⟩ else ⟨false, some 500⟩ :
                BackendPtr → ProbeResult) 10).err = false
            ∧ ((fun b => if b = 10 then ⟨false, some 200⟩ else ⟨false, some 500⟩ :
                BackendPtr → ProbeResult) 10).resp = some StatusOK) :=
  ⟨by decide, by simp,
   C6_healthCheck_flag_iff_probe_ok
     (fun b => if b = 10 then ⟨false, some 200⟩ else ⟨false, some 500⟩)
     ⟨[10, 11], NewRoundRobin 1⟩ ⟨fun _ => some "u", fun b => b == 11, 12⟩ 10
     (by decide) (by simp)⟩

/-! ## Admission -/

/-- C7. `Allow` returns true exactly when the script evaluation returned a nil
error and the `int64` 1; an error, or a result of another value or type, gives
false. The store is left as the evaluation left it. -/
theorem C7_Allow_iff_script_returns_one {σ : Type} (t : TokenBucket σ) (now : Int)
    (ip : String) (s : σ) :
    ((t.Allow now ip s).1 = true
        ↔ (t.client.Eval Script.allowScript [bucketKey ++ ip, configKey ++ ip]
              [now, t.ttl, t.defaultCapacity, t.defaultRate] s).1.err = none
          ∧ (t.client.Eval Script.allowScript [bucketKey ++ ip, configKey ++ ip]
              [now, t.ttl, t.defaultCapacity, t.defaultRate] s).1.result = RedisValue.int64 1)
      ∧ (t.Allow now ip s).2
          = (t.client.Eval Script.allowScript [bucketKey ++ ip, configKey ++ ip]
              [now, t.ttl, t.defaultCapacity, t.defaultRate] s).2 := by
  simp only [TokenBucket.Allow]
  split
  · rename_i e he
    simp [he]
  · rename_i he
    split
    · rename_i allowed hres
      simp [he, hres]
    · rename_i hres
      simp only [he, Bool.false_eq_true, true_and, false_iff, and_true]
      intro hc
      exact hres 1 hc

/-! ## Handler -/

/-- C8. For a request whose remote address splits into host and port,
`ServeHTTP` asks the limiter about the host; it runs `Route` and relays what
`Route` wrote exactly when `Allow` returned true, and when `Allow` returned
false it answers 429 and leaves the balancer untouched. -/
theorem C8_ServeHTTP_routes_iff_allowed {σ β ρ : Type}
    (splitHostPort : String → Except String (String × String)) (services : Services σ β ρ)
    (remoteAddr host port : String) (s : σ) (b : β)
    (hsplit : splitHostPort remoteAddr = Except.ok (host, port)) :
    ((services.RateLimiter host s).1 = true →
        Handler.ServeHTTP splitHostPort services remoteAddr s b
          = (Response.routed (services.LoadBalancer b).1, (services.RateLimiter host s).2,
             (services.LoadBalancer b).2))
      ∧ ((services.RateLimiter host s).1 = false →
        Handler.ServeHTTP splitHostPort services remoteAddr s b
          = (Response.json StatusTooManyRequests "Too many request from your IP",
             (services.RateLimiter host s).2, b))
      ∧ ((∃ r, (Handler.ServeHTTP splitHostPort services remoteAddr s b).1 = Response.routed r)
          ↔ (services.RateLimiter host s).1 = true) := by
  unfold Handler.ServeHTTP getClientIP
  rw [hsplit]
  cases ha : (services.RateLimiter host s).1 <;> simp [ha]

/-- Witness of C8: the limiter holds a token count, the balancer counts the
requests it routed; with no token left the answer is 429 and the balancer's
state is unchanged. -/
theorem C8_ServeHTTP_routes_iff_allowed_witness :
    (fun _ => Except.ok ("10.0.0.1", "5000") : String → Except String (String × String))
        "10.0.0.1:5000" = Except.ok ("10.0.0.1", "5000")
      ∧ Handler.ServeHTTP (fun _ => Except.ok ("10.0.0.1", "5000"))
          (⟨fun _ n => (decide (0 < n), n - 1), fun b => (200, b + 1)⟩ : Services Nat Nat Nat)
          "10.0.0.1:5000" 0 7
        = (Response.json 429 "Too many request from your IP", 0, 7) :=
  ⟨rfl,
   (C8_ServeHTTP_routes_iff_allowed (fun _ => Except.ok ("10.0.0.1", "5000"))
      (⟨fun _ n => (decide (0 < n), n - 1), fun b => (200, b + 1)⟩ : Services Nat Nat Nat)
      "10.0.0.1:5000" "10.0.0.1" "5000" 0 7 rfl).2.1 rfl⟩

/-! ## Sequences of routed requests -/

theorem run_responses (pool : List BackendPtr) (h : Heap)
    (hurl : ∀ b ∈ pool, h.URL b ≠ none)
    (hne : pool.filter (fun b => IsAlive h b) ≠ []) :
    ∀ (statuses : List Nat) (c k : Nat),
      (LoadBalancer.run
          (statuses.map (fun s => Event.route (fun _ => ForwardResult.response s)))
          { serverPool := pool, strategy := { currentIndex := c } } h).1[k]?
        = statuses[k]?.map (fun s => Except.ok
            { status := s,
              forwardedTo := (pool.filter (fun b => IsAlive h b))[(c + 1 + k) % 2 ^ 64
                % (pool.filter (fun b => IsAlive h b)).length]? }) := by
  intro statuses
  induction statuses with
  | nil => intro c k; simp [LoadBalancer.run]
  | cons s ss ih =>
    intro c k
    obtain ⟨b, hb, hr⟩ := Route_of_alive (fun _ => ForwardResult.response s)
      { serverPool := pool, strategy := { currentIndex := c } } h hurl hne
    simp only [LoadBalancer.getAliveBackends] at hb
    simp only [List.map_cons, LoadBalancer.run, hr, ReverseProxy.ServeHTTP]
    rcases k with _ | k
    · simp only [List.getElem?_cons_zero, Option.map_some', Nat.add_zero, hb]
    · have hk : ((c + 1) % 2 ^ 64 + 1 + k) % 2 ^ 64 = (c + 1 + (k + 1)) % 2 ^ 64 := by omega
      simp only [List.getElem?_cons_succ]
      rw [ih ((c + 1) % 2 ^ 64) k, hk]

theorem run_empty_pool :
    ∀ (es : List Event) (lb : LoadBalancer) (h : Heap), lb.serverPool = [] →
      ∀ x ∈ (lb.run es h).1, x = Except.ok respondNoBackends := by
  intro es
  induction es with
  | nil => intro lb h _ x hx; simp [LoadBalancer.run] at hx
  | cons e es ih =>
    intro lb h hpool x hx
    have hr : ∀ fwd, lb.Route fwd h = (Except.ok respondNoBackends, lb, h) := by
      intro fwd
      simp [LoadBalancer.Route, LoadBalancer.getAliveBackends, hpool]
    cases e with
    | route fwd =>
      simp only [LoadBalancer.run, hr, List.mem_cons] at hx
      rcases hx with hx | hx
      · exact hx
      · exact ih lb h hpool x hx
    | healthCheck probe =>
      simp only [LoadBalancer.run] at hx
      exact ih lb _ hpool x hx

theorem ServeHTTP_keeps_dead (fwd : ForwardResult) (b bad : BackendPtr) (h : Heap)
    (hbad : IsAlive h bad = false) :
    IsAlive (ReverseProxy.ServeHTTP fwd (some b) h).2 bad = false := by
  cases fwd with
  | response s => exact hbad
  | transportError =>
    simp only [ReverseProxy.ServeHTTP, ErrorHandler, IsAlive, SetAlive]
    by_cases hb : bad = b
    · subst hb; simp
    · rw [Function.update_noteq hb]; exact hbad

theorem ServeHTTP_URL (fwd : ForwardResult) (tag : Option BackendPtr) (h : Heap) :
    (ReverseProxy.ServeHTTP fwd tag h).2.URL = h.URL := by
  cases fwd with
  | response s => rfl
  | transportError => cases tag <;> rfl

theorem run_routes_avoid_dead (bad : BackendPtr) :
    ∀ (fwds : List (BackendPtr → ForwardResult)) (lb : LoadBalancer) (h : Heap),
      (∀ b ∈ lb.serverPool, h.URL b ≠ none) →
      IsAlive h bad = false →
      ∀ x ∈ (lb.run (fwds.map Event.route) h).1,
        ∃ r, x = Except.ok r ∧ r.forwardedTo ≠ some bad := by
  intro fwds
  induction fwds with
  | nil => intro lb h _ _ x hx; simp [LoadBalancer.run] at hx
  | cons fwd fwds ih =>
    intro lb h hurl hbad x hx
    by_cases hnil : lb.getAliveBackends h = []
    · have hr : lb.Route fwd h = (Except.ok respondNoBackends, lb, h) := by
        simp [LoadBalancer.Route, hnil]
      simp only [List.map_cons, LoadBalancer.run, hr, List.mem_cons] at hx
      rcases hx with hx | hx
      · exact ⟨respondNoBackends, hx, by simp [respondNoBackends]⟩
      · exact ih lb h hurl hbad x hx
    · obtain ⟨b, hb, hr⟩ := Route_of_alive fwd lb h hurl hnil
      have halive : IsAlive h b = true :=
        getAliveBackends_alive lb h b (List.getElem?_mem hb)
      have hne : b ≠ bad := by
        intro hc
        rw [hc, hbad] at halive
        cases halive
      simp only [List.map_cons, LoadBalancer.run, hr, List.mem_cons] at hx
      rcases hx with hx | hx
      · refine ⟨_, hx, ?_⟩
        intro hc
        exact hne (Option.some.inj hc)
      · refine ih _ _ ?_ (ServeHTTP_keeps_dead (fwd b) b bad h hbad) x hx
        intro y hy
        rw [ServeHTTP_URL]
        exact hurl y hy

theorem two_alternate (x y : BackendPtr) (c : Nat) :
    ∃ g0 g1, ((g0 = x ∧ g1 = y) ∨ (g0 = y ∧ g1 = x))
      ∧ ∀ k, [x, y][(c + 1 + k) % 2 ^ 64 % 2]? = some (if k % 2 = 0 then g0 else g1) := by
  by_cases hc : (c + 1) % 2 = 0
  · refine ⟨x, y, Or.inl ⟨rfl, rfl⟩, ?_⟩
    intro k
    have hk : (c + 1 + k) % 2 ^ 64 % 2 = k % 2 := by omega
    rw [hk]
    rcases Nat.mod_two_eq_zero_or_one k with h | h <;> simp [h]
  · refine ⟨y, x, Or.inr ⟨rfl, rfl⟩, ?_⟩
    intro k
    rcases Nat.mod_two_eq_zero_or_one k with h | h
    · have hk : (c + 1 + k) % 2 ^ 64 % 2 = 1 := by omega
      rw [hk]; simp [h]
    · have hk : (c + 1 + k) % 2 ^ 64 % 2 = 0 := by omega
      rw [hk]; simp [h]

theorem filter_three (p : BackendPtr → Bool) (b0 b1 b2 bad : BackendPtr)
    (hnodup : [b0, b1, b2].Nodup) (hbad : bad ∈ [b0, b1, b2]) (hpb : p bad = false)
    (hpg : ∀ b ∈ [b0, b1, b2], b ≠ bad → p b = true) :
    ∃ x y, [b0, b1, b2].filter p = [x, y] ∧ x ≠ y ∧ x ≠ bad ∧ y ≠ bad
      ∧ x ∈ [b0, b1, b2] ∧ y ∈ [b0, b1, b2] := by
  simp only [List.nodup_cons, List.mem_cons, List.mem_singleton, not_or, List.not_mem_nil,
    not_false_eq_true, List.nodup_nil, and_true] at hnodup
  obtain ⟨⟨h01, h02⟩, h12⟩ := hnodup
  simp only [List.mem_cons, List.mem_singleton, List.not_mem_nil, or_false] at hbad
  rcases hbad with hb | hb | hb
  · subst hb
    have h1 := hpg b1 (by simp) (Ne.symm h01)
    have h2 := hpg b2 (by simp) (Ne.symm h02)
    exact ⟨b1, b2, by simp [List.filter, hpb, h1, h2], h12, Ne.symm h01, Ne.symm h02,
      by simp, by simp⟩
  · subst hb
    have h0 := hpg b0 (by simp) h01
    have h2 := hpg b2 (by simp) (Ne.symm h12)
    exact ⟨b0, b2, by simp [List.filter, hpb, h0, h2], h02, h01, Ne.symm h12,
      by simp, by simp⟩
  · subst hb
    have h0 := hpg b0 (by simp) h02
    have h1 := hpg b1 (by simp) h12
    exact ⟨b0, b1, by simp [List.filter, hpb, h0, h1], h01, h02, h12, by simp, by simp⟩

/-- C9. Three distinct backends with URLs are configured; on the health probe
exactly one of them, `bad`, returns a status other than 200 and the other two
return 200. After one `healthCheck` pass no `Route` call forwards to `bad`,
whatever becomes of the forwarded requests; and when the forwarded requests
are served by the backends, every call is forwarded (none is answered by the
503 of `Route`) and consecutive calls alternate between the two remaining
backends `g0`, `g1`: call number `k` goes to `g0` when `k` is even and to `g1`
when `k` is odd, for every cursor value at the start. -/
theorem C9_one_unhealthy_of_three (probe : BackendPtr → ProbeResult)
    (b0 b1 b2 bad : BackendPtr) (c : Nat) (h : Heap) (statuses : List Nat)
    (hnodup : [b0, b1, b2].Nodup) (hbad : bad ∈ [b0, b1, b2])
    (hurl : ∀ b ∈ [b0, b1, b2], h.URL b ≠ none)
    (hprobeBad : (probe bad).err = false
      ∧ ∃ code, (probe bad).resp = some code ∧ code ≠ StatusOK)
    (hprobeGood : ∀ b ∈ [b0, b1, b2], b ≠ bad → probe b = ⟨false, some StatusOK⟩) :
    (∀ (fwds : List (BackendPtr → ForwardResult)),
        ∀ x ∈ (LoadBalancer.run (fwds.map Event.route)
            { serverPool := [b0, b1, b2], strategy := { currentIndex := c } }
            (LoadBalancer.healthCheck probe
              { serverPool := [b0, b1, b2], strategy := { currentIndex := c } } h)).1,
          ∃ r, x = Except.ok r ∧ r.forwardedTo ≠ some bad)
    ∧ ∃ g0 g1, g0 ∈ [b0, b1, b2] ∧ g1 ∈ [b0, b1, b2] ∧ g0 ≠ g1 ∧ g0 ≠ bad ∧ g1 ≠ bad
      ∧ ∀ k, (LoadBalancer.run
            (statuses.map (fun s => Event.route (fun _ => ForwardResult.response s)))
            { serverPool := [b0, b1, b2], strategy := { currentIndex := c } }
            (LoadBalancer.healthCheck probe
              { serverPool := [b0, b1, b2], strategy := { currentIndex := c } } h)).1[k]?
          = statuses[k]?.map (fun s => Except.ok
              (RouteResult.mk s (some (if k % 2 = 0 then g0 else g1)))) := by
  have hflag : ∀ b ∈ [b0, b1, b2],
      IsAlive (LoadBalancer.healthCheck probe
        { serverPool := [b0, b1, b2], strategy := { currentIndex := c } } h) b
        = (probe b).alive := by
    intro b hb
    unfold IsAlive LoadBalancer.healthCheck
    rw [(healthCheck_foldl probe [b0, b1, b2] h).2 b, if_pos ⟨hb, hurl b hb⟩]
  have hpb : IsAlive (LoadBalancer.healthCheck probe
      { serverPool := [b0, b1, b2], strategy := { currentIndex := c } } h) bad = false := by
    rw [hflag bad hbad]
    obtain ⟨he, code, hc, hne⟩ := hprobeBad
    cases hal : (probe bad).alive with
    | false => rfl
    | true =>
      have := ((ProbeResult.alive_iff _).mp hal).2
      rw [hc] at this
      exact absurd (Option.some.inj this) hne
  have hpg : ∀ b ∈ [b0, b1, b2], b ≠ bad →
      IsAlive (LoadBalancer.healthCheck probe
        { serverPool := [b0, b1, b2], strategy := { currentIndex := c } } h) b = true := by
    intro b hb hne
    rw [hflag b hb, hprobeGood b hb hne]
    rfl
  obtain ⟨x, y, hf, hxy, hxb, hyb, hx, hy⟩ :=
    filter_three (fun b => IsAlive (LoadBalancer.healthCheck probe
      { serverPool := [b0, b1, b2], strategy := { currentIndex := c } } h) b)
      b0 b1 b2 bad hnodup hbad hpb hpg
  obtain ⟨g0, g1, hg, halt⟩ := two_alternate x y c
  have hne : [b0, b1, b2].filter (fun b => IsAlive (LoadBalancer.healthCheck probe
      { serverPool := [b0, b1, b2], strategy := { currentIndex := c } } h) b) ≠ [] := by
    rw [hf]; simp
  have hurl2 : ∀ b ∈ [b0, b1, b2], (LoadBalancer.healthCheck probe
      { serverPool := [b0, b1, b2], strategy := { currentIndex := c } } h).URL b ≠ none := by
    intro b hb
    unfold LoadBalancer.healthCheck
    rw [(healthCheck_foldl probe [b0, b1, b2] h).1]
    exact hurl b hb
  have hrun := run_responses [b0, b1, b2] _ hurl2 hne statuses c
  rw [hf] at hrun
  have hgoal : ∀ k, (LoadBalancer.run
        (statuses.map (fun s => Event.route (fun _ => ForwardResult.response s)))
        { serverPool := [b0, b1, b2], strategy := { currentIndex := c } }
        (LoadBalancer.healthCheck probe
          { serverPool := [b0, b1, b2], strategy := { currentIndex := c } } h)).1[k]?
      = statuses[k]?.map (fun s => Except.ok
          (RouteResult.mk s (some (if k % 2 = 0 then g0 else g1)))) := by
    intro k
    rw [hrun k]
    have hlen : [x, y].length = 2 := rfl
    rw [hlen, halt k]
  refine ⟨fun fwds => run_routes_avoid_dead bad fwds _ _ hurl2 hpb, ?_⟩
  rcases hg with ⟨h0, h1⟩ | ⟨h0, h1⟩
  · subst h0; subst h1
    exact ⟨g0, g1, hx, hy, hxy, hxb, hyb, hgoal⟩
  · subst h0; subst h1
    exact ⟨g0, g1, hy, hx, Ne.symm hxy, hyb, hxb, hgoal⟩

/-- Witness of C9: backends 10, 11, 12, of which 11 answers 500 on the probe;
from cursor 1 the requests go to 10, 12, 10. -/
theorem C9_one_unhealthy_of_three_witness :
    ([10, 11, 12] : List BackendPtr).Nodup ∧ (11 : BackendPtr) ∈ [10, 11, 12]
      ∧ (LoadBalancer.run
            ([200, 200, 404].map (fun s => Event.route (fun _ => ForwardResult.response s)))
            { serverPool := [10, 11, 12], strategy := { currentIndex := 1 } }
            (LoadBalancer.healthCheck
              (fun b => if b = 11 then ⟨false, some 500⟩ else ⟨false, some 200⟩)
              { serverPool := [10, 11, 12], strategy := { currentIndex := 1 } }
              ⟨fun _ => some "u", fun _ => true, 13⟩)).1
          = [Except.ok ⟨200, some 10⟩, Except.ok ⟨200, some 12⟩, Except.ok ⟨404, some 10⟩]
      ∧ ∃ g0 g1, g0 ∈ [10, 11, 12] ∧ g1 ∈ [10, 11, 12] ∧ g0 ≠ g1 ∧ g0 ≠ 11 ∧ g1 ≠ 11
        ∧ ∀ k, (LoadBalancer.run
            ([200, 200, 404].map (fun s => Event.route (fun _ => ForwardResult.response s)))
            { serverPool := [10, 11, 12], strategy := { currentIndex := 1 } }
            (LoadBalancer.healthCheck
              (fun b => if b = 11 then ⟨false, some 500⟩ else ⟨false, some 200⟩)
              { serverPool := [10, 11, 12], strategy := { currentIndex := 1 } }
              ⟨fun _ => some "u", fun _ => true, 13⟩)).1[k]?
          = [200, 200, 404][k]?.map (fun s => Except.ok
              (RouteResult.mk s (some (if k % 2 = 0 then g0 else g1)))) :=
  ⟨by decide, by decide, rfl,
   (C9_one_unhealthy_of_three
     (fun b => if b = 11 then ⟨false, some 500⟩ else ⟨false, some 200⟩)
     10 11 12 11 1 ⟨fun _ => some "u", fun _ => true, 13⟩ [200, 200, 404]
     (by decide) (by decide) (by intro b _; simp)
     ⟨rfl, 500, rfl, by decide⟩
     (by intro b _ hne; simp [hne, StatusOK])).2⟩

/-! ## Construction -/

theorem NewLoadBalancer_foldl (urlParse : String → Except String URL) :
    ∀ (addrs : List String) (acc : List BackendPtr × Heap),
      (∀ b ∈ acc.1, b < acc.2.next) →
      ((addrs.foldl (NewLoadBalancer.step urlParse) acc).1.map
          (addrs.foldl (NewLoadBalancer.step urlParse) acc).2.URL
        = acc.1.map acc.2.URL
            ++ (addrs.filterMap (fun a => (urlParse a).toOption)).map some)
      ∧ (acc.1.Nodup → (addrs.foldl (NewLoadBalancer.step urlParse) acc).1.Nodup)
      ∧ ((∀ b ∈ acc.1, acc.2.Alive b = true) →
          ∀ b ∈ (addrs.foldl (NewLoadBalancer.step urlParse) acc).1,
            (addrs.foldl (NewLoadBalancer.step urlParse) acc).2.Alive b = true) := by
  intro addrs
  induction addrs with
  | nil => intro acc _; simp
  | cons a addrs ih =>
    intro acc hlt
    rw [List.foldl_cons]
    cases hp : urlParse a with
    | error e =>
      have hstep : NewLoadBalancer.step urlParse acc a = acc := by
        simp [NewLoadBalancer.step, hp]
      rw [hstep]
      simpa [List.filterMap_cons, hp, Except.toOption] using ih acc hlt
    | ok u =>
      have hstep : NewLoadBalancer.step urlParse acc a
          = (acc.1 ++ [acc.2.next],
             { URL := Function.update acc.2.URL acc.2.next (some u),
               Alive := Function.update acc.2.Alive acc.2.next true,
               next := acc.2.next + 1 }) := by
        simp [NewLoadBalancer.step, hp, NewBackend]
      rw [hstep]
      have hlt2 : ∀ b ∈ acc.1 ++ [acc.2.next], b < acc.2.next + 1 := by
        intro b hb
        rcases List.mem_append.mp hb with hb | hb
        · exact Nat.lt_succ_of_lt (hlt b hb)
        · rw [List.mem_singleton.mp hb]
          exact Nat.lt_succ_self _
      obtain ⟨ih1, ih2, ih3⟩ := ih (acc.1 ++ [acc.2.next],
             { URL := Function.update acc.2.URL acc.2.next (some u),
               Alive := Function.update acc.2.Alive acc.2.next true,
               next := acc.2.next + 1 }) hlt2
      have hurl : acc.1.map (Function.update acc.2.URL acc.2.next (some u))
          = acc.1.map acc.2.URL := by
        apply List.map_congr_left
        intro b hb
        exact Function.update_noteq (Nat.ne_of_lt (hlt b hb)) _ _
      refine ⟨?_, ?_, ?_⟩
      · rw [ih1]
        simp [List.filterMap_cons, hp, Except.toOption, hurl]
      · intro hnd
        apply ih2
        rw [List.nodup_append]
        refine ⟨hnd, by simp, ?_⟩
        intro b hb hb2
        rw [List.mem_singleton.mp hb2] at hb
        exact Nat.lt_irrefl _ (hlt _ hb)
      · intro hal
        apply ih3
        intro b hb
        rcases List.mem_append.mp hb with hb | hb
        · simp only
          rw [Function.update_noteq (Nat.ne_of_lt (hlt b hb))]
          exact hal b hb
        · simp at hb
          subst hb
          simp

/-- C10. For every address list, `NewLoadBalancer` returns a balancer whose
pool holds, in configuration order, one backend object for each address that
`url.Parse` accepts and none for the others: the URLs of the pool entries are
exactly the parsed addresses, the entries are distinct objects, all alive,
and the cursor starts at 1. When no address parses the pool is empty and,
whatever health checks and requests follow, every `Route` call answers 503
without forwarding. -/
theorem C10_NewLoadBalancer_pool (urlParse : String → Except String URL)
    (cfg : BalancerConfig) (h : Heap) :
    (NewLoadBalancer urlParse cfg h).1.serverPool.map (NewLoadBalancer urlParse cfg h).2.URL
        = (cfg.Backends.filterMap (fun a => (urlParse a).toOption)).map some
      ∧ (NewLoadBalancer urlParse cfg h).1.serverPool.Nodup
      ∧ (∀ b ∈ (NewLoadBalancer urlParse cfg h).1.serverPool,
          IsAlive (NewLoadBalancer urlParse cfg h).2 b = true)
      ∧ (NewLoadBalancer urlParse cfg h).1.strategy = NewRoundRobin 1
      ∧ ((∀ a ∈ cfg.Backends, (urlParse a).toOption = none) →
          (NewLoadBalancer urlParse cfg h).1.serverPool = []
            ∧ ∀ (es : List Event),
                ∀ x ∈ ((NewLoadBalancer urlParse cfg h).1.run es
                    (NewLoadBalancer urlParse cfg h).2).1,
                  x = Except.ok respondNoBackends) := by
  obtain ⟨h1, h2, h3⟩ := NewLoadBalancer_foldl urlParse cfg.Backends ([], h) (by simp)
  refine ⟨by simpa [NewLoadBalancer] using h1, by simpa [NewLoadBalancer] using h2,
    by simpa [NewLoadBalancer, IsAlive] using h3, rfl, ?_⟩
  intro hnone
  have hempty : (NewLoadBalancer urlParse cfg h).1.serverPool = [] := by
    have hfm : cfg.Backends.filterMap (fun a => (urlParse a).toOption) = [] := by
      rw [List.filterMap_eq_nil_iff]
      exact hnone
    have := h1
    rw [hfm] at this
    simpa [NewLoadBalancer] using this
  exact ⟨hempty, fun es => run_empty_pool es _ _ hempty⟩

/-- Witness of C10: with a parser that rejects every address the pool is
empty; with one that rejects only the short address, the pool holds the two
others in order. -/
theorem C10_NewLoadBalancer_pool_witness :
    (∀ a ∈ ["%zz", "a b"],
        ((fun _ => Except.error "invalid" : String → Except String URL) a).toOption = none)
      ∧ (NewLoadBalancer (fun _ => Except.error "invalid") ⟨["%zz", "a b"], 5⟩
          ⟨fun _ => none, fun _ => false, 0⟩).1.serverPool = []
      ∧ (NewLoadBalancer (fun a => if a.length < 3 then Except.error "invalid" else Except.ok a)
          ⟨["http://a", "x", "http://b"], 5⟩ ⟨fun _ => none, fun _ => false, 0⟩).1
          = ⟨[0, 1], NewRoundRobin 1⟩ :=
  ⟨by intro a _; rfl,
   ((C10_NewLoadBalancer_pool (fun _ => Except.error "invalid") ⟨["%zz", "a b"], 5⟩
      ⟨fun _ => none, fun _ => false, 0⟩).2.2.2.2 (by intro a _; rfl)).1,
   by decide⟩

/-! ## Refill sweep -/

theorem stringsSplit_ne_nil (s : String) (sep : Char) : stringsSplit s sep ≠ [] := by
  unfold stringsSplit List.splitOn
  intro hc
  exact List.splitOnP_ne_nil _ _ (List.map_eq_nil_iff.mp hc)

theorem stringsSplit_bucketKey (ip : String) :
    stringsSplit (bucketKey ++ ip) ':' = "bucket" :: stringsSplit ip ':' := by
  have hdata : (bucketKey ++ ip).data = "bucket".data ++ ':' :: ip.data := by
    rw [String.data_append]; rfl
  unfold stringsSplit List.splitOn
  rw [hdata, List.splitOnP_first (fun c => c == ':') "bucket".data (by decide) ':' (by decide)]
  rfl

theorem configKeyOf_bucketKey (ip : String) :
    TokenBucket.refill.configKeyOf (bucketKey ++ ip)
      = Except.ok (configKey ++ (stringsSplit (bucketKey ++ ip) ':').getD 1 "") := by
  unfold TokenBucket.refill.configKeyOf
  rw [stringsSplit_bucketKey]
  cases hs : stringsSplit ip ':' with
  | nil => exact absurd hs (stringsSplit_ne_nil ip ':')
  | cons piece rest => simp

theorem refill_loop_recording {σ : Type} (client : RateLimiterRepository σ)
    (cap rate ttl now : Int) :
    ∀ (keys : List String) (s : σ) (log : List EvalCall),
      (∀ k ∈ keys, ∃ ip, k = bucketKey ++ ip) →
      (TokenBucket.refill.loop ⟨recording client, cap, rate, ttl⟩ now keys (s, log)).1
          = Except.ok ()
        ∧ (TokenBucket.refill.loop ⟨recording client, cap, rate, ttl⟩ now keys (s, log)).2.2
          = log ++ keys.map (fun k => EvalCall.mk Script.refillScript
              [k, configKey ++ (stringsSplit k ':').getD 1 ""] [now, ttl]) := by
  intro keys
  induction keys with
  | nil => intro s log _; simp [TokenBucket.refill.loop]
  | cons k rest ih =>
    intro s log hpre
    obtain ⟨ip, hip⟩ := hpre k (List.mem_cons_self _ _)
    have hrest : ∀ k2 ∈ rest, ∃ ip2, k2 = bucketKey ++ ip2 :=
      fun k2 hk2 => hpre k2 (List.mem_cons_of_mem _ hk2)
    subst hip
    simp only [TokenBucket.refill.loop, configKeyOf_bucketKey, recording]
    obtain ⟨ih1, ih2⟩ := ih
      (client.Eval Script.refillScript
        [bucketKey ++ ip, configKey ++ (stringsSplit (bucketKey ++ ip) ':').getD 1 ""]
        [now, ttl] s).2
      (log ++ [EvalCall.mk Script.refillScript
        [bucketKey ++ ip, configKey ++ (stringsSplit (bucketKey ++ ip) ':').getD 1 ""]
        [now, ttl]]) hrest
    simp only [recording] at ih1 ih2
    refine ⟨ih1, ?_⟩
    rw [ih2, List.map_cons, List.append_assoc, List.singleton_append]

/-- C11. Whatever the store answers to the evaluations, error or not, one
refill sweep over an enumeration of keys that all start with `bucket:` returns
without failing and has evaluated the refill script exactly once per key, in
enumeration order, with that key as the bucket key (and the time and the TTL
as arguments). When the enumeration itself fails, the sweep returns without
failing and no script has been evaluated. -/
theorem C11_refill_once_per_key {σ : Type} (client : RateLimiterRepository σ)
    (cap rate ttl now : Int) (s : σ) :
    ((client.Keys s).1.2 = none →
      (∀ k ∈ (client.Keys s).1.1, ∃ ip, k = bucketKey ++ ip) →
      (TokenBucket.refill ⟨recording client, cap, rate, ttl⟩ now (s, [])).1 = Except.ok ()
        ∧ (TokenBucket.refill ⟨recording client, cap, rate, ttl⟩ now (s, [])).2.2
          = (client.Keys s).1.1.map (fun k => EvalCall.mk Script.refillScript
              [k, configKey ++ (stringsSplit k ':').getD 1 ""] [now, ttl]))
      ∧ ((client.Keys s).1.2 ≠ none →
        (TokenBucket.refill ⟨recording client, cap, rate, ttl⟩ now (s, [])).1 = Except.ok ()
          ∧ (TokenBucket.refill ⟨recording client, cap, rate, ttl⟩ now (s, [])).2.2 = []) := by
  constructor
  · intro hok hpre
    have hloop := refill_loop_recording client cap rate ttl now (client.Keys s).1.1
      (client.Keys s).2 [] hpre
    by_cases hlen : (client.Keys s).1.1.length = 0
    · have hnil : (client.Keys s).1.1 = [] := List.length_eq_zero.mp hlen
      simp [TokenBucket.refill, recording, hok, hnil]
    · simpa [TokenBucket.refill, recording, hok, hlen] using hloop
  · intro herr
    cases he : (client.Keys s).1.2 with
    | none => exact absurd he herr
    | some e => simp [TokenBucket.refill, recording, he]

/-- Witness of C11: the store enumerates two keys and answers every evaluation
with an error; both keys are evaluated, in order. -/
theorem C11_refill_once_per_key_witness :
    (((⟨fun _ _ _ u => (⟨RedisValue.nil, some "down"⟩, u),
        fun u => ((["bucket:10.0.0.1", "bucket:10.0.0.2"], none), u)⟩ :
          RateLimiterRepository Unit).Keys ()).1.2 = none)
      ∧ (∀ k ∈ ["bucket:10.0.0.1", "bucket:10.0.0.2"], ∃ ip, k = bucketKey ++ ip)
      ∧ (TokenBucket.refill ⟨recording (⟨fun _ _ _ u => (⟨RedisValue.nil, some "down"⟩, u),
            fun u => ((["bucket:10.0.0.1", "bucket:10.0.0.2"], none), u)⟩ :
              RateLimiterRepository Unit), 5, 1, 60⟩ 1000 ((), [])).2.2
          = [EvalCall.mk Script.refillScript ["bucket:10.0.0.1", "config:10.0.0.1"] [1000, 60],
             EvalCall.mk Script.refillScript ["bucket:10.0.0.2", "config:10.0.0.2"] [1000, 60]] :=
  ⟨rfl,
   by
    intro k hk
    simp only [List.mem_cons, List.mem_singleton, List.not_mem_nil, or_false] at hk
    rcases hk with hk | hk
    · exact ⟨"10.0.0.1", hk.trans (by decide)⟩
    · exact ⟨"10.0.0.2", hk.trans (by decide)⟩,
   ((C11_refill_once_per_key (⟨fun _ _ _ u => (⟨RedisValue.nil, some "down"⟩, u),
        fun u => ((["bucket:10.0.0.1", "bucket:10.0.0.2"], none), u)⟩ :
          RateLimiterRepository Unit) 5 1 60 1000 ()).1 rfl
      (by
        intro k hk
        simp only [List.mem_cons, List.mem_singleton, List.not_mem_nil, or_false] at hk
        rcases hk with hk | hk
        · exact ⟨"10.0.0.1", hk.trans (by decide)⟩
        · exact ⟨"10.0.0.2", hk.trans (by decide)⟩)).2.trans (by decide)⟩

/-! ## Token bucket -/

theorem allowScriptModel_eq (key cfgKey : String) (now ttl capacity rate : Int) (s : Store) :
    allowScriptModel [key, cfgKey] [now, ttl, capacity, rate] s
      = if 1 ≤ s.tokensOf key cfgKey capacity then
          (EvalResult.mk (RedisValue.int64 1) none,
           Store.mk (Function.update s.buckets key
              (some (Bucket.mk (s.tokensOf key cfgKey capacity - 1)
                (match s.buckets key with
                  | some b => b.lastRefill
                  | none => now) ttl))) s.configs)
        else
          (EvalResult.mk (RedisValue.int64 0) none,
           Store.mk (Function.update s.buckets key
              (some (Bucket.mk (s.tokensOf key cfgKey capacity)
                (match s.buckets key with
                  | some b => b.lastRefill
                  | none => now) ttl))) s.configs) := by
  cases hb : s.buckets key with
  | none => simp [allowScriptModel, Store.tokensOf, hb]
  | some b => simp [allowScriptModel, Store.tokensOf, hb]

theorem Allow_step (t : TokenBucket Store) (now : Int) (ip : String) (s : Store)
    (hclient : ∀ keys args st,
      t.client.Eval Script.allowScript keys args st = allowScriptModel keys args st) :
    (t.Allow now ip s).1
        = decide (1 ≤ s.tokensOf (bucketKey ++ ip) (configKey ++ ip) t.defaultCapacity)
      ∧ (t.Allow now ip s).2.tokensOf (bucketKey ++ ip) (configKey ++ ip) t.defaultCapacity
        = if 1 ≤ s.tokensOf (bucketKey ++ ip) (configKey ++ ip) t.defaultCapacity
          then s.tokensOf (bucketKey ++ ip) (configKey ++ ip) t.defaultCapacity - 1
          else s.tokensOf (bucketKey ++ ip) (configKey ++ ip) t.defaultCapacity := by
  simp only [TokenBucket.Allow, hclient, allowScriptModel_eq]
  by_cases h1 : 1 ≤ s.tokensOf (bucketKey ++ ip) (configKey ++ ip) t.defaultCapacity
  · simp only [h1, if_true]
    simp [Store.tokensOf]
  · simp only [h1, if_false]
    simp [Store.tokensOf]

theorem allows_of_tokens (t : TokenBucket Store) (ip : String)
    (hclient : ∀ keys args st,
      t.client.Eval Script.allowScript keys args st = allowScriptModel keys args st) :
    ∀ (c : Nat) (nows : List Int) (s : Store),
      s.tokensOf (bucketKey ++ ip) (configKey ++ ip) t.defaultCapacity = (c : Int) →
      nows.length = c + 1 →
      (t.allows ip nows s).1 = List.replicate c true ++ [false] := by
  intro c
  induction c with
  | zero =>
    intro nows s htok hlen
    match nows, hlen with
    | [now], _ =>
      have hstep := (Allow_step t now ip s hclient).1
      rw [htok] at hstep
      simp [TokenBucket.allows, hstep]
  | succ c ih =>
    intro nows s htok hlen
    match nows, hlen with
    | now :: rest, hlen =>
      obtain ⟨h1, h2⟩ := Allow_step t now ip s hclient
      rw [htok] at h1 h2
      have hpos : (1 : Int) ≤ ((c + 1 : Nat) : Int) := by omega
      rw [if_pos hpos] at h2
      have htok2 : (t.Allow now ip s).2.tokensOf (bucketKey ++ ip) (configKey ++ ip)
          t.defaultCapacity = (c : Int) := by
        rw [h2]; omega
      have hrest : rest.length = c + 1 := by simpa using hlen
      simp only [TokenBucket.allows, ih rest _ htok2 hrest, h1, hpos, decide_True,
        List.replicate_succ, List.cons_append]

/-- C12. The store runs the admission script as the specification describes
it. For a client with no bucket state in the store, whose fresh bucket is
filled to capacity `C` (the default capacity, or that of its config entry),
`C + 1` consecutive calls of `Allow`, at whatever times and with nothing else
touching the store in between, answer true `C` times and then false. -/
theorem C12_first_C_allowed_then_denied (t : TokenBucket Store) (ip : String) (s : Store)
    (C : Nat) (nows : List Int)
    (hclient : ∀ keys args st,
      t.client.Eval Script.allowScript keys args st = allowScriptModel keys args st)
    (hempty : s.buckets (bucketKey ++ ip) = none)
    (hcap : (match s.configs (configKey ++ ip) with
      | some c => c.capacity
      | none => t.defaultCapacity) = (C : Int))
    (hlen : nows.length = C + 1) :
    (t.allows ip nows s).1 = List.replicate C true ++ [false] := by
  have htok : s.tokensOf (bucketKey ++ ip) (configKey ++ ip) t.defaultCapacity = (C : Int) := by
    simp only [Store.tokensOf, hempty]
    exact hcap
  exact allows_of_tokens t ip hclient C nows s htok hlen

/-- Witness of C12: default capacity 2, an empty store, three calls. -/
theorem C12_first_C_allowed_then_denied_witness :
    (∀ keys args st,
        (TokenBucket.mk admissionOnly 2 1 60).client.Eval Script.allowScript keys args st
          = allowScriptModel keys args st)
      ∧ (Store.mk (fun _ => none) (fun _ => none)).buckets (bucketKey ++ "10.0.0.1") = none
      ∧ (match (Store.mk (fun _ => none) (fun _ => none)).configs (configKey ++ "10.0.0.1") with
          | some c => c.capacity
          | none => (TokenBucket.mk admissionOnly 2 1 60).defaultCapacity) = ((2 : Nat) : Int)
      ∧ ([1000, 1000, 1001] : List Int).length = 2 + 1
      ∧ ((TokenBucket.mk admissionOnly 2 1 60).allows "10.0.0.1" [1000, 1000, 1001]
          (Store.mk (fun _ => none) (fun _ => none))).1 = [true, true, false] :=
  ⟨fun _ _ _ => rfl, rfl, rfl, rfl,
   C12_first_C_allowed_then_denied (TokenBucket.mk admissionOnly 2 1 60) "10.0.0.1"
     (Store.mk (fun _ => none) (fun _ => none)) 2 [1000, 1000, 1001]
     (fun _ _ _ => rfl) rfl rfl rfl⟩

/-! ## The cursor after a selection -/

theorem scan_found (h : Heap) (bs : List BackendPtr) (start : Nat) :
    ∀ (n i : Nat) (rr rr2 : RoundRobin) (b : BackendPtr),
      RoundRobin.scan h bs bs.length start n i rr = (Except.ok (some b), rr2) →
      ∃ j, j < n ∧ bs[(i + j) % bs.length]? = some b ∧ IsAlive h b = true
        ∧ (∀ k, k < j → ∀ x, bs[(i + k) % bs.length]? = some x → IsAlive h x = false)
        ∧ rr2 = if i + j ≠ start then { currentIndex := (i + j) % bs.length } else rr := by
  intro n
  induction n with
  | zero =>
    intro i rr rr2 b hs
    simp [RoundRobin.scan] at hs
  | succ n ih =>
    intro i rr rr2 b hs
    simp only [RoundRobin.scan] at hs
    cases hx : bs[i % bs.length]? with
    | none => simp [hx] at hs
    | some x =>
      simp only [hx] at hs
      by_cases ha : IsAlive h x = true
      · simp only [ha, if_true, Prod.mk.injEq, Except.ok.injEq, Option.some.injEq] at hs
        obtain ⟨hxb, hrr⟩ := hs
        subst hxb
        refine ⟨0, Nat.succ_pos _, by simpa using hx, ha, ?_, ?_⟩
        · intro k hk; omega
        · simpa using hrr.symm
      · simp only [ha, if_false, Bool.false_eq_true] at hs
        obtain ⟨j, hj, hb, hab, hdead, hrr⟩ := ih (i + 1) rr rr2 b hs
        have hidx : i + 1 + j = i + (j + 1) := by omega
        rw [hidx] at hb hrr
        refine ⟨j + 1, by omega, hb, hab, ?_, hrr⟩
        intro k hk y hy
        rcases k with _ | k
        · rw [Nat.add_zero, hx] at hy
          cases hy
          simpa using ha
        · have hidx2 : i + (k + 1) = i + 1 + k := by omega
          rw [hidx2] at hy
          exact hdead k (by omega) y hy

theorem mod_add_ne_self (len start j : Nat) (hs : start < len) (hj : j < len) (h0 : 0 < j) :
    (start + j) % len ≠ start := by
  by_cases hlt : start + j < len
  · rw [Nat.mod_eq_of_lt hlt]; omega
  · have hge : len ≤ start + j := by omega
    rw [Nat.mod_eq_sub_mod hge, Nat.mod_eq_of_lt (by omega)]
    omega

/-- C13, as amended. On a non-empty list, with the cursor `c` below the
maximum of its `uint64` range, a call of `NextBackend` that returns a backend
leaves the cursor at `c + 1` when the entry at the starting index
`(c + 1) % count` is alive (it is the one returned). When that entry is dead
and a later one is returned, the cursor is set to the list index of the
returned backend instead, which is not the starting index. -/
theorem C13_cursor_after_selection (h : Heap) (rr : RoundRobin) (bs : List BackendPtr)
    (b : BackendPtr) (hne : bs ≠ []) (hc : rr.currentIndex < 2 ^ 64 - 1)
    (hret : (rr.NextBackend h bs).1 = Except.ok (some b)) :
    ∃ x, bs[(rr.currentIndex + 1) % bs.length]? = some x
      ∧ ((IsAlive h x = true ∧ b = x
            ∧ (rr.NextBackend h bs).2.currentIndex = rr.currentIndex + 1)
        ∨ (IsAlive h x = false
            ∧ ∃ j, j < bs.length ∧ j ≠ (rr.currentIndex + 1) % bs.length ∧ bs[j]? = some b
              ∧ (rr.NextBackend h bs).2.currentIndex = j)) := by
  have hpos : 0 < bs.length := List.length_pos.mpr hne
  have hlen : bs.length ≠ 0 := by omega
  have hmod : (rr.currentIndex + 1) % 2 ^ 64 = rr.currentIndex + 1 :=
    Nat.mod_eq_of_lt (by omega)
  have hstart : (rr.currentIndex + 1) % bs.length < bs.length := Nat.mod_lt _ hpos
  have hsm : (rr.currentIndex + 1) % bs.length % bs.length = (rr.currentIndex + 1) % bs.length :=
    Nat.mod_mod _ _
  have hnb : rr.NextBackend h bs
      = RoundRobin.scan h bs bs.length ((rr.currentIndex + 1) % bs.length) bs.length
          ((rr.currentIndex + 1) % bs.length) { currentIndex := rr.currentIndex + 1 } := by
    simp only [RoundRobin.NextBackend, RoundRobin.getNextIndex, hlen, if_false, hmod]
  have hpair : RoundRobin.scan h bs bs.length ((rr.currentIndex + 1) % bs.length) bs.length
      ((rr.currentIndex + 1) % bs.length) { currentIndex := rr.currentIndex + 1 }
      = (Except.ok (some b), (rr.NextBackend h bs).2) := by
    rw [← hnb]
    exact Prod.ext hret rfl
  obtain ⟨j, hj, hb, hab, hdead, hrr⟩ := scan_found h bs _ _ _ _ _ b hpair
  refine ⟨bs[(rr.currentIndex + 1) % bs.length], List.getElem?_eq_getElem hstart, ?_⟩
  rcases Nat.eq_zero_or_pos j with hj0 | hj0
  · subst hj0
    rw [Nat.add_zero, hsm, List.getElem?_eq_getElem hstart] at hb
    have hbx := Option.some.inj hb
    left
    refine ⟨hbx ▸ hab, hbx.symm, ?_⟩
    rw [hrr]
    simp
  · right
    have hx0 := hdead 0 hj0 (bs[(rr.currentIndex + 1) % bs.length])
      (by rw [Nat.add_zero, hsm]; exact List.getElem?_eq_getElem hstart)
    have hne2 := mod_add_ne_self bs.length _ j hstart hj hj0
    refine ⟨hx0, ((rr.currentIndex + 1) % bs.length + j) % bs.length, Nat.mod_lt _ hpos,
      hne2, hb, ?_⟩
    rw [hrr, if_pos (by omega)]

/-- Witness of C13 as amended: of two backends the second is dead; from cursor
4 the starting index is 1, the first backend is returned and the cursor is 0. -/
theorem C13_cursor_after_selection_witness :
    ([10, 11] : List BackendPtr) ≠ [] ∧ (RoundRobin.mk 4).currentIndex < 2 ^ 64 - 1
      ∧ ((RoundRobin.mk 4).NextBackend ⟨fun _ => none, fun b => b == 10, 12⟩ [10, 11]).1
          = Except.ok (some 10)
      ∧ ∃ x, ([10, 11] : List BackendPtr)[((RoundRobin.mk 4).currentIndex + 1)
            % ([10, 11] : List BackendPtr).length]? = some x
        ∧ ((IsAlive ⟨fun _ => none, fun b => b == 10, 12⟩ x = true ∧ 10 = x
              ∧ ((RoundRobin.mk 4).NextBackend ⟨fun _ => none, fun b => b == 10, 12⟩
                  [10, 11]).2.currentIndex = (RoundRobin.mk 4).currentIndex + 1)
          ∨ (IsAlive ⟨fun _ => none, fun b => b == 10, 12⟩ x = false
              ∧ ∃ j, j < ([10, 11] : List BackendPtr).length
                ∧ j ≠ ((RoundRobin.mk 4).currentIndex + 1) % ([10, 11] : List BackendPtr).length
                ∧ ([10, 11] : List BackendPtr)[j]? = some 10
                ∧ ((RoundRobin.mk 4).NextBackend ⟨fun _ => none, fun b => b == 10, 12⟩
                    [10, 11]).2.currentIndex = j)) :=
  ⟨by decide, by decide, rfl,
   C13_cursor_after_selection ⟨fun _ => none, fun b => b == 10, 12⟩ (RoundRobin.mk 4)
     [10, 11] 10 (by decide) (by decide) rfl⟩

/-- Counterexample to C13 as stated: of two backends the second is dead; from
cursor 4 the call returns the first backend and leaves the cursor at 0, not
at 5. -/
theorem C13_counterexample_resync :
    (RoundRobin.mk 4).currentIndex < 2 ^ 64 - 1
      ∧ (RoundRobin.mk 4).NextBackend ⟨fun _ => none, fun b => b == 10, 12⟩ [10, 11]
          = (Except.ok (some 10), RoundRobin.mk 0)
      ∧ ((RoundRobin.mk 4).NextBackend ⟨fun _ => none, fun b => b == 10, 12⟩
          [10, 11]).2.currentIndex ≠ (RoundRobin.mk 4).currentIndex + 1 :=
  ⟨by decide, rfl, by decide⟩

/-! ## The config key of the refill sweep -/

theorem stringsSplit_of_no_sep (s : String) (sep : Char) (hs : sep ∉ s.data) :
    stringsSplit s sep = [s] := by
  unfold stringsSplit List.splitOn
  rw [List.splitOnP_eq_single]
  · rfl
  · intro x hx hc
    have hxs : x = sep := by simpa using hc
    exact hs (hxs ▸ hx)

theorem configKeyOf_of_no_colon (ip : String) (hip : ':' ∉ ip.data) :
    TokenBucket.refill.configKeyOf (bucketKey ++ ip) = Except.ok (configKey ++ ip) := by
  unfold TokenBucket.refill.configKeyOf
  rw [stringsSplit_bucketKey, stringsSplit_of_no_sep ip ':' hip]
  rfl

/-- C14, evaluated where it fails. For the client `::1` (remote address
`[::1]:port`), `Allow` evaluates its script with the keys `bucket:::1` and
`config:::1`, while the refill sweep, given the bucket key `bucket:::1`,
evaluates its script with the config key `config:`: the split at `:` keeps
only the piece between the first and the second colon, here the empty one. -/
theorem C14_refill_config_key_ipv6 :
    ((TokenBucket.mk (recording (⟨fun _ _ _ u => (⟨RedisValue.int64 1, none⟩, u),
          fun u => ((["bucket:::1"], none), u)⟩ : RateLimiterRepository Unit)) 5 1 60).Allow
        1000 "::1" ((), [])).2.2
        = [EvalCall.mk Script.allowScript ["bucket:::1", "config:::1"] [1000, 60, 5, 1]]
      ∧ ((TokenBucket.mk (recording (⟨fun _ _ _ u => (⟨RedisValue.int64 1, none⟩, u),
          fun u => ((["bucket:::1"], none), u)⟩ : RateLimiterRepository Unit)) 5 1 60).refill
        1000 ((), [])).2.2
        = [EvalCall.mk Script.refillScript ["bucket:::1", "config:"] [1000, 60]]
      ∧ TokenBucket.refill.configKeyOf (bucketKey ++ "::1") = Except.ok "config:"
      ∧ ("config:" : String) ≠ configKey ++ "::1" :=
  ⟨by decide, by decide, rfl, by decide⟩

end LB
